import Mathlib

/-!
The j4status MPD input plugin: shallow embedding of `input/mpd/src/mpd.c`

The definitions below follow the C source function by function.  C strings are
lists of characters (`CString`), a nullable `gchar *` is an `Option CString`,
enumerations are inductive types, `guint64` bit masks are natural numbers and
every mutation of a struct is an explicit functional update.  The commands
written with `mpd_async_send_command` are collected, in order, in the `mpd`
field of the section, and the calls made on the core `J4statusSection` object
are collected in the `section` field.

Characters stand for the bytes of the UTF-8 text: every test the plugin makes on
a line compares against ASCII text, so the outcome is the same on either reading.
The GLib and libmpdclient functions the plugin calls are modelled after their
documented behaviour.
-/

namespace J4status.Mpd

/-- A NUL-terminated C string (the bytes before the terminator). -/
abbrev CString := List Char

/-! ## Enumerations of `mpd.c` -/

/-- The enumeration `J4statusMpdAction` (values 0 to 6 in declaration order). -/
inductive J4statusMpdAction where
  | ACTION_TOGGLE
  | ACTION_PLAY
  | ACTION_PAUSE
  | ACTION_STOP
  | ACTION_NEXT
  | ACTION_PREVIOUS
  | ACTION_NONE
  deriving DecidableEq, Repr, Inhabited

/-- The enumeration `J4statusMpdCommand`. -/
inductive J4statusMpdCommand where
  | COMMAND_PASSWORD
  | COMMAND_IDLE
  | COMMAND_QUERY
  | COMMAND_ACTION
  deriving DecidableEq, Repr, Inhabited

/-- The enumeration `J4statusMpdSectionState`. -/
inductive J4statusMpdSectionState where
  | STATE_PLAY
  | STATE_PAUSE
  | STATE_STOP
  deriving DecidableEq, Repr, Inhabited

/-- The severity levels of the core (`J4statusState`) that `mpd.c` names. -/
inductive J4statusState where
  | J4STATUS_STATE_NO_STATE
  | J4STATUS_STATE_BAD
  | J4STATUS_STATE_AVERAGE
  | J4STATUS_STATE_GOOD
  deriving DecidableEq, Repr, Inhabited

/-- The error codes of `enum mpd_error`: success, or any other code (the handler
only tests for success, the code itself is not inspected). -/
inductive mpd_error where
  | MPD_ERROR_SUCCESS
  | MPD_ERROR_OTHER (code : Nat)
  deriving DecidableEq, Repr, Inhabited

open J4statusMpdAction J4statusMpdCommand J4statusMpdSectionState J4statusState mpd_error

/-- The integer value of a `J4statusMpdAction`. -/
def J4statusMpdAction.toNat : J4statusMpdAction → Nat
  | ACTION_TOGGLE => 0
  | ACTION_PLAY => 1
  | ACTION_PAUSE => 2
  | ACTION_STOP => 3
  | ACTION_NEXT => 4
  | ACTION_PREVIOUS => 5
  | ACTION_NONE => 6

/-- The cast of an unsigned integer to `J4statusMpdAction`, as done on the result
of `GPOINTER_TO_UINT`.  The configured table only holds the values 0 to 5. -/
def J4statusMpdAction.ofUInt : Nat → J4statusMpdAction
  | 0 => ACTION_TOGGLE
  | 1 => ACTION_PLAY
  | 2 => ACTION_PAUSE
  | 3 => ACTION_STOP
  | 4 => ACTION_NEXT
  | 5 => ACTION_PREVIOUS
  | _ => ACTION_NONE

/-- The integer value of a `J4statusMpdSectionState` (used by `g_variant_new_byte`). -/
def J4statusMpdSectionState.toNat : J4statusMpdSectionState → Nat
  | STATE_PLAY => 0
  | STATE_PAUSE => 1
  | STATE_STOP => 2

/-! ## Token numbers and flags -/

def TOKEN_SONG : Nat := 0
def TOKEN_STATE : Nat := 1
def TOKEN_DATABASE : Nat := 2
def TOKEN_OPTIONS : Nat := 3
def TOKEN_VOLUME : Nat := 4

def TOKEN_FLAG_SONG : Nat := 1 <<< TOKEN_SONG
def TOKEN_FLAG_STATE : Nat := 1 <<< TOKEN_STATE
def TOKEN_FLAG_DATABASE : Nat := 1 <<< TOKEN_DATABASE
def TOKEN_FLAG_OPTIONS : Nat := 1 <<< TOKEN_OPTIONS
def TOKEN_FLAG_VOLUME : Nat := 1 <<< TOKEN_VOLUME

/-! ## The GLib functions used by the line handler -/

/-- GLib `g_str_has_prefix`: the first `strlen(prefix)` bytes of `str` are `prefix`. -/
def g_str_has_prefix (str pfx : CString) : Bool :=
  pfx.isPrefixOf str

/-- GLib `g_ascii_tolower`: only the letters `A` to `Z` are changed. -/
def g_ascii_tolower (c : Char) : Char :=
  if 'A' ≤ c ∧ c ≤ 'Z' then Char.ofNat (c.toNat + 32) else c

/-- GLib `g_ascii_toupper`: only the letters `a` to `z` are changed. -/
def g_ascii_toupper (c : Char) : Char :=
  if 'a' ≤ c ∧ c ≤ 'z' then Char.ofNat (c.toNat - 32) else c

/-- GLib `g_ascii_strncasecmp`: compare at most `n` bytes, ignoring the case of
ASCII letters; the end of a string counts as the byte 0. -/
def g_ascii_strncasecmp : CString → CString → Nat → Int
  | _, _, 0 => 0
  | [], [], _ + 1 => 0
  | [], c2 :: _, _ + 1 => - (c2.toNat : Int)
  | c1 :: _, [], _ + 1 => (c1.toNat : Int)
  | c1 :: s1, c2 :: s2, n + 1 =>
    if g_ascii_tolower c1 ≠ g_ascii_tolower c2 then
      ((g_ascii_tolower c1).toNat : Int) - ((g_ascii_tolower c2).toNat : Int)
    else g_ascii_strncasecmp s1 s2 n

/-- The directory separator test `G_IS_DIR_SEPARATOR` (Unix). -/
def G_IS_DIR_SEPARATOR (c : Char) : Bool := c == '/'

/-- GLib `g_path_get_basename` (Unix): the empty string gives `.`, a string of
slashes gives `/`, otherwise trailing slashes are dropped and the component after
the last remaining slash is returned. -/
def g_path_get_basename (file_name : CString) : CString :=
  if file_name = [] then ['.']
  else
    let stripped := (file_name.reverse.dropWhile G_IS_DIR_SEPARATOR)
    if stripped = [] then ['/']
    else (stripped.takeWhile (fun c => !G_IS_DIR_SEPARATOR c)).reverse

/-- GLib `g_utf8_strchr (p, -1, c)`: the offset of the leftmost occurrence of `c`
in `p`, or `none` (NULL) when `c` does not occur. -/
def g_utf8_strchr : CString → Char → Option Nat
  | [], _ => none
  | x :: rest, c =>
    if x = c then some 0
    else match g_utf8_strchr rest c with
      | none => none
      | some i => some (i + 1)

def G_MAXUINT64 : Nat := 2 ^ 64 - 1
def G_MAXINT64 : Int := 2 ^ 63 - 1
def G_MININT64 : Int := - 2 ^ 63

/-- The `ISSPACE` test of GLib's number parser. -/
def ISSPACE (c : Char) : Bool :=
  c == ' ' || c == '\x0c' || c == '\n' || c == '\r' || c == '\t' || c == '\x0b'

/-- The value of a digit character in GLib's number parser: decimal digits, then
letters (either case) counting from 10; `none` for any other character. -/
def digit_value (c : Char) : Option Nat :=
  if '0' ≤ c ∧ c ≤ '9' then some (c.toNat - '0'.toNat)
  else if ('a' ≤ c ∧ c ≤ 'z') ∨ ('A' ≤ c ∧ c ≤ 'Z') then
    some ((g_ascii_toupper c).toNat - 'A'.toNat + 10)
  else none

/-- The digit loop of `g_parse_long_long`: returns the accumulated value, whether
an overflow was seen and how many characters were consumed. -/
def parse_digits (base : Nat) : CString → Nat → Bool → Nat → Nat × Bool × Nat
  | [], ui64, overflow, used => (ui64, overflow, used)
  | c :: s, ui64, overflow, used =>
    match digit_value c with
    | none => (ui64, overflow, used)
    | some d =>
      if d ≥ base then (ui64, overflow, used)
      else if ui64 > G_MAXUINT64 / base ∨ (ui64 = G_MAXUINT64 / base ∧ d > G_MAXUINT64 % base) then
        parse_digits base s ui64 true (used + 1)
      else parse_digits base s (ui64 * base + d) overflow (used + 1)

/-- GLib `g_parse_long_long` without the end pointer: the magnitude and the sign.
A base of 1 or above 36 is rejected at once (`EINVAL`) with the result 0. -/
def g_parse_long_long (nptr : CString) (base : Nat) : Nat × Bool :=
  if base = 1 ∨ base > 36 then (0, false)
  else
    let s := nptr.dropWhile ISSPACE
    if s = [] then (0, false)
    else
      let negative := s.head? = some '-'
      let s := if s.head? = some '-' ∨ s.head? = some '+' then s.tail else s
      let hex := (base = 0 ∨ base = 16) ∧ s.head? = some '0' ∧
        (s.tail.head?.map g_ascii_toupper) = some 'X'
      let base' := if hex then 16
        else if base = 0 then (if s.head? = some '0' then 8 else 10)
        else base
      let s := if hex then s.drop 2 else s
      let r := parse_digits base' s 0 false 0
      if r.2.2 = 0 then (0, negative)
      else if r.2.1 then (G_MAXUINT64, negative)
      else (r.1, negative)

/-- GLib `g_ascii_strtoll (nptr, NULL, base)`: the parsed value saturated to the
range of `gint64`; 0 when the base is outside 0, 2..36. -/
def g_ascii_strtoll (nptr : CString) (base : Nat) : Int :=
  let r := g_parse_long_long nptr base
  if r.2 ∧ (r.1 : Int) > - G_MININT64 then G_MININT64
  else if ¬ r.2 ∧ (r.1 : Int) > G_MAXINT64 then G_MAXINT64
  else if r.2 then - (r.1 : Int)
  else (r.1 : Int)

/-- The GLib macro `CLAMP (x, low, high)`. -/
def CLAMP (x low high : Int) : Int :=
  if x > high then high else if x < low then low else x

/-! ## Data model -/

/-- One command line written by `mpd_async_send_command`: the command word and
its arguments. -/
structure MpdCommandLine where
  command : CString
  args : List CString
  deriving DecidableEq, Repr, Inhabited

/-- The values built by `_j4status_mpd_format_callback` (`g_variant_new_*`). -/
inductive GVariant where
  | string (s : CString)
  | byte (n : Nat)
  | boolean (b : Bool)
  | dict (entries : List (CString × Bool))
  | int16 (n : Int)
  deriving DecidableEq, Repr, Inhabited

/-- The calls made on the core's `J4statusSection` object. -/
inductive J4statusSectionCall where
  | set_state (state : J4statusState)
  | set_value (value : List (Option GVariant))
  deriving DecidableEq, Repr, Inhabited

/-- The struct `J4statusMpdSection`.  The back pointer `context` is passed to the
functions that read it; `section` records the calls made on the core section
object, `mpd` the command lines sent on the connection, and `format` lists the
token numbers the parsed format string refers to. -/
structure J4statusMpdSection where
  «section» : List J4statusSectionCall
  mpd : List MpdCommandLine
  used_tokens : Nat
  format : List Nat
  command : J4statusMpdCommand
  pending : J4statusMpdAction
  current_song : Option CString
  current_filename : Option CString
  state : J4statusMpdSectionState
  updating : Bool
  «repeat» : Bool
  random : Bool
  single : Bool
  consume : Bool
  volume : Int
  deriving DecidableEq, Repr, Inhabited

/-- The struct `J4statusMpdConfig`: the action table (a `GHashTable *`, possibly
NULL) from event identifiers to indices into `_j4status_mpd_action_list`. -/
structure J4statusMpdConfig where
  actions : Option (List (CString × Fin 6))
  deriving DecidableEq, Repr, Inhabited

/-- The struct `_J4statusPluginContext`; `sections` holds the addresses of the
sections in list order. -/
structure J4statusPluginContext where
  config : J4statusMpdConfig
  sections : List Nat
  started : Bool
  deriving DecidableEq, Repr, Inhabited

/-- GLib `g_hash_table_lookup` followed by `GPOINTER_TO_UINT`: the stored index,
or 0 (the NULL pointer) when the key is absent. -/
def g_hash_table_lookup : List (CString × Fin 6) → CString → Nat
  | [], _ => 0
  | (k, v) :: rest, key => if k = key then v.val else g_hash_table_lookup rest key

/-- GLib `g_list_remove`: drop the first node whose data is `data`. -/
def g_list_remove : List Nat → Nat → List Nat
  | [], _ => []
  | x :: rest, data => if x = data then rest else x :: g_list_remove rest data

/-- The arguments of a NULL-terminated variadic call: those before the first NULL. -/
def va_args : List (Option CString) → List CString
  | [] => []
  | none :: _ => []
  | some a :: rest => a :: va_args rest

/-- The call `mpd_async_send_command (mpd, command, ..., NULL)`: one command line
is appended to what was sent so far. -/
def mpd_async_send_command (mpd : List MpdCommandLine) (command : CString)
    (args : List (Option CString)) : List MpdCommandLine :=
  mpd ++ [{ command := command, args := va_args args }]

/-! ## The functions of `mpd.c` -/

/-- The function `_j4status_mpd_section_command`; `password` is the variadic
argument read by the `COMMAND_PASSWORD` case.  The `ACTION_NONE` case of the
inner switch is `g_assert_not_reached ()`; past the assertion the command word is
still the empty string, which is what the model sends there. -/
def _j4status_mpd_section_command (s : J4statusMpdSection) (command : J4statusMpdCommand)
    (password : Option CString) : J4statusMpdSection :=
  let command := if s.pending ≠ ACTION_NONE then COMMAND_ACTION else command
  let s :=
    match command with
    | COMMAND_PASSWORD =>
      { s with mpd := mpd_async_send_command s.mpd "password".toList [password] }
    | COMMAND_IDLE =>
      let params : List (Option CString) := []
      let params := if s.used_tokens &&& (TOKEN_FLAG_STATE ||| TOKEN_FLAG_SONG) ≠ 0
        then params ++ [some "player".toList] else params
      let params := if s.used_tokens &&& TOKEN_FLAG_DATABASE ≠ 0
        then params ++ [some "database".toList] else params
      let params := if s.used_tokens &&& TOKEN_FLAG_OPTIONS ≠ 0
        then params ++ [some "options".toList] else params
      let params := if s.used_tokens &&& TOKEN_FLAG_VOLUME ≠ 0
        then params ++ [some "mixer".toList] else params
      let params := (params ++ [none, none, none, none]).take 4
      { s with mpd := mpd_async_send_command s.mpd "idle".toList params }
    | COMMAND_QUERY =>
      let s := { s with current_song := none }
      let s := { s with mpd := mpd_async_send_command s.mpd "command_list_begin".toList [] }
      let s := { s with mpd := mpd_async_send_command s.mpd "status".toList [] }
      let s := { s with mpd := mpd_async_send_command s.mpd "currentsong".toList [] }
      { s with mpd := mpd_async_send_command s.mpd "command_list_end".toList [] }
    | COMMAND_ACTION =>
      let r : CString × Option CString :=
        match s.pending with
        | ACTION_NONE => ("".toList, none)
        | ACTION_TOGGLE =>
          ("pause".toList, if s.state = STATE_PAUSE then some "0".toList else some "1".toList)
        | ACTION_PLAY => ("play".toList, none)
        | ACTION_PAUSE => ("pause".toList, some "1".toList)
        | ACTION_STOP => ("stop".toList, none)
        | ACTION_NEXT => ("next".toList, none)
        | ACTION_PREVIOUS => ("previous".toList, none)
      { s with mpd := mpd_async_send_command s.mpd r.1 [r.2] }
  { s with command := command }

/-- The function `_j4status_mpd_section_action_callback`; `actions` is the table
`section->context->config.actions`. -/
def _j4status_mpd_section_action_callback (actions : List (CString × Fin 6))
    (s : J4statusMpdSection) (event_id : CString) : J4statusMpdSection :=
  if s.pending ≠ ACTION_NONE then s
  else
    match s.command with
    | COMMAND_PASSWORD =>
      { s with pending := J4statusMpdAction.ofUInt (g_hash_table_lookup actions event_id) }
    | COMMAND_IDLE =>
      let s := { s with mpd := mpd_async_send_command s.mpd "noidle".toList [] }
      { s with pending := J4statusMpdAction.ofUInt (g_hash_table_lookup actions event_id) }
    | COMMAND_QUERY =>
      { s with pending := J4statusMpdAction.ofUInt (g_hash_table_lookup actions event_id) }
    | COMMAND_ACTION => s

/-- The function `_j4status_mpd_format_callback`.  The `TOKEN_SONG` case has no
`break`: when both titles are NULL control falls through to `TOKEN_STATE`. -/
def _j4status_mpd_format_callback (value : Nat) (s : J4statusMpdSection) : Option GVariant :=
  if value = TOKEN_SONG then
    match s.current_song with
    | some song => some (GVariant.string song)
    | none =>
      match s.current_filename with
      | some filename => some (GVariant.string filename)
      | none => some (GVariant.byte s.state.toNat)
  else if value = TOKEN_STATE then some (GVariant.byte s.state.toNat)
  else if value = TOKEN_DATABASE then some (GVariant.boolean s.updating)
  else if value = TOKEN_OPTIONS then
    some (GVariant.dict [("repeat".toList, s.«repeat»), ("random".toList, s.random),
      ("single".toList, s.single), ("consume".toList, s.consume)])
  else if value = TOKEN_VOLUME then
    if s.volume < 0 then none else some (GVariant.int16 s.volume)
  else none

/-- Modelled from the spec: the formatting engine `j4status_format_string_replace`
of the core library, which asks the callback for an optional value per token the
format refers to; the rendered string is represented by that list of values. -/
def j4status_format_string_replace (format : List Nat)
    (callback : Nat → J4statusMpdSection → Option GVariant) (s : J4statusMpdSection) :
    List (Option GVariant) :=
  format.map (fun token => callback token s)

/-- The function `_j4status_mpd_section_update`. -/
def _j4status_mpd_section_update (s : J4statusMpdSection) : J4statusMpdSection :=
  let state :=
    match s.state with
    | STATE_PLAY => J4STATUS_STATE_GOOD
    | STATE_PAUSE => J4STATUS_STATE_AVERAGE
    | STATE_STOP => J4STATUS_STATE_BAD
  let value := j4status_format_string_replace s.format _j4status_mpd_format_callback s
  let s := { s with «section» := s.«section» ++ [J4statusSectionCall.set_state state] }
  { s with «section» := s.«section» ++ [J4statusSectionCall.set_value value] }

/-- The return values of a GLib source callback. -/
def G_SOURCE_CONTINUE : Bool := true
def G_SOURCE_REMOVE : Bool := false

/-- The C library function `strlen`. -/
def strlen (s : CString) : Nat := s.length

/-- The outcome of one call of the line handler: the GLib return value, the
context, the section struct as the call left it (`data`), and whether the call
freed the section. -/
structure LineCallbackResult where
  ret : Bool
  context : J4statusPluginContext
  data : J4statusMpdSection
  freed : Bool
  deriving DecidableEq, Repr, Inhabited

/-- The function `_j4status_mpd_section_line_callback`, called for the section at
address `self`.  On the `fail` path the section list of the context loses `self`
and the section is freed.  The line is not read when `error` is not
`MPD_ERROR_SUCCESS`. -/
def _j4status_mpd_section_line_callback (context : J4statusPluginContext) (self : Nat)
    (s : J4statusMpdSection) (line : CString) (error : mpd_error) : LineCallbackResult :=
  if error ≠ MPD_ERROR_SUCCESS then
    { ret := G_SOURCE_REMOVE,
      context := { context with sections := g_list_remove context.sections self },
      data := s, freed := true }
  else
    let s :=
      match s.command with
      | COMMAND_PASSWORD =>
        if line = "OK".toList then _j4status_mpd_section_command s COMMAND_QUERY none else s
      | COMMAND_IDLE =>
        if g_str_has_prefix line "changed: ".toList then
          let subsystem := line.drop (strlen "changed: ".toList)
          let s := if subsystem = "database".toList then { s with updating := false } else s
          if subsystem = "player".toList then { s with current_song := none } else s
        else if line = "OK".toList then
          _j4status_mpd_section_command s
            (if context.started then COMMAND_QUERY else COMMAND_IDLE) none
        else s
      | COMMAND_QUERY =>
        if line = "OK".toList then
          let s := _j4status_mpd_section_update s
          _j4status_mpd_section_command s COMMAND_IDLE none
        else if g_str_has_prefix line "state: ".toList then
          let state := line.drop (strlen "state: ".toList)
          if state = "play".toList then { s with state := STATE_PLAY }
          else if state = "pause".toList then { s with state := STATE_PAUSE }
          else if state = "stop".toList then { s with state := STATE_STOP }
          else s
        else if g_str_has_prefix line "updating_db: ".toList then
          { s with updating := true }
        else if g_ascii_strncasecmp line "file: ".toList (strlen "file: ".toList) = 0 then
          let current_filename := g_path_get_basename (line.drop (strlen "file: ".toList))
          let ext := g_utf8_strchr current_filename '.'
          match ext with
          | some i => { s with current_filename := some (current_filename.take i) }
          | none => { s with current_filename := some current_filename }
        else if g_ascii_strncasecmp line "Title: ".toList (strlen "Title: ".toList) = 0 then
          if s.current_song = none then
            { s with current_song := some (line.drop (strlen "Title: ".toList)) }
          else s
        else if g_str_has_prefix line "repeat: ".toList then
          { s with «repeat» := decide (line.get? (strlen "repeat: ".toList) = some '1') }
        else if g_str_has_prefix line "random: ".toList then
          { s with random := decide (line.get? (strlen "random: ".toList) = some '1') }
        else if g_str_has_prefix line "single: ".toList then
          { s with single := decide (line.get? (strlen "single: ".toList) = some '1') }
        else if g_str_has_prefix line "consume: ".toList then
          { s with consume := decide (line.get? (strlen "consume: ".toList) = some '1') }
        else if g_str_has_prefix line "volume: ".toList then
          let tmp := g_ascii_strtoll (line.drop (strlen "volume: ".toList)) 100
          { s with volume := CLAMP tmp (-1) 100 }
        else s
      | COMMAND_ACTION =>
        if line = "OK".toList then
          let s := { s with pending := ACTION_NONE }
          _j4status_mpd_section_command s COMMAND_QUERY none
        else s
    { ret := G_SOURCE_CONTINUE, context := context, data := s, freed := false }

/-- The function `_j4status_mpd_section_start`. -/
def _j4status_mpd_section_start (s : J4statusMpdSection) : J4statusMpdSection :=
  if s.command = COMMAND_IDLE then
    { s with mpd := mpd_async_send_command s.mpd "noidle".toList [] }
  else s

/-- The function `_j4status_mpd_section_new`.  `source` tells whether
`g_water_mpd_source_new` succeeded, `insert` whether `j4status_section_insert`
did, and `format` and `used_tokens` are the results of
`j4status_format_string_parse`.  The struct starts zeroed (`g_new0`). -/
def _j4status_mpd_section_new (source insert : Bool) (format : List Nat) (used_tokens : Nat)
    (password : Option CString) : Option J4statusMpdSection :=
  let s : J4statusMpdSection :=
    { «section» := [], mpd := [], used_tokens := 0, format := [],
      command := COMMAND_PASSWORD, pending := ACTION_TOGGLE,
      current_song := none, current_filename := none, state := STATE_PLAY,
      updating := false, «repeat» := false, random := false, single := false,
      consume := false, volume := 0 }
  let s := { s with pending := ACTION_NONE }
  if source = false then none
  else if insert = false then none
  else
    let s := { s with volume := -1 }
    let s := { s with format := format, used_tokens := used_tokens }
    if s.used_tokens = 0 then none
    else
      match password with
      | some pw => some (_j4status_mpd_section_command s COMMAND_PASSWORD (some pw))
      | none => some (_j4status_mpd_section_command s COMMAND_QUERY none)

/-! ## The plugin as a whole -/

/-- The plugin's memory: the context and the live sections by address. -/
structure World where
  context : J4statusPluginContext
  heap : List (Nat × J4statusMpdSection)
  deriving DecidableEq, Repr, Inhabited

/-- The section stored at an address. -/
def heap_get : List (Nat × J4statusMpdSection) → Nat → Option J4statusMpdSection
  | [], _ => none
  | (a, s) :: rest, p => if a = p then some s else heap_get rest p

/-- Overwrite the section stored at an address. -/
def heap_set : List (Nat × J4statusMpdSection) → Nat → J4statusMpdSection →
    List (Nat × J4statusMpdSection)
  | [], _, _ => []
  | (a, s) :: rest, p, s' =>
    if a = p then (a, s') :: rest else (a, s) :: heap_set rest p s'

/-- The function `_j4status_mpd_section_free`: the address is no longer live. -/
def _j4status_mpd_section_free : List (Nat × J4statusMpdSection) → Nat →
    List (Nat × J4statusMpdSection)
  | [], _ => []
  | (a, s) :: rest, p =>
    if a = p then rest else (a, s) :: _j4status_mpd_section_free rest p

/-- The function `_j4status_mpd_init` once host, port and password are resolved
from the configuration and the environment: `host` is `none` when neither names
a server, `addr` is the address of the new section. -/
def _j4status_mpd_init (config : J4statusMpdConfig) (host : Option CString)
    (password : Option CString) (source insert : Bool) (format : List Nat)
    (used_tokens : Nat) (addr : Nat) : Option World :=
  match host with
  | none => none
  | some _ =>
    let context : J4statusPluginContext := { config := config, sections := [], started := false }
    match _j4status_mpd_section_new source insert format used_tokens password with
    | some s =>
      some { context := { context with sections := addr :: context.sections },
             heap := [(addr, s)] }
    | none => none

/-- The function `_j4status_mpd_start`: `g_list_foreach` applies
`_j4status_mpd_section_start` to every section of the list. -/
def _j4status_mpd_start (w : World) : World :=
  let context := { w.context with started := true }
  let heap := context.sections.foldl
    (fun heap p =>
      match heap_get heap p with
      | some s => heap_set heap p (_j4status_mpd_section_start s)
      | none => heap)
    w.heap
  { context := context, heap := heap }

/-- The function `_j4status_mpd_stop`. -/
def _j4status_mpd_stop (w : World) : World :=
  { w with context := { w.context with started := false } }

/-- What the main loop delivers to the plugin: a decoded line or a transport
error for the section at `p`, an action event for it, and the core's start and
stop calls. -/
inductive Event where
  | line (p : Nat) (line : CString) (error : mpd_error)
  | action (p : Nat) (event_id : CString)
  | start
  | stop
  deriving DecidableEq, Repr, Inhabited

/-- Deliver one event.  Callbacks only run for live sections, and the action
callback is only registered when the action table is not NULL. -/
def step (w : World) : Event → World
  | Event.line p line error =>
    match heap_get w.heap p with
    | none => w
    | some s =>
      let r := _j4status_mpd_section_line_callback w.context p s line error
      if r.freed then { context := r.context, heap := _j4status_mpd_section_free w.heap p }
      else { context := r.context, heap := heap_set w.heap p r.data }
  | Event.action p event_id =>
    match heap_get w.heap p, w.context.config.actions with
    | some s, some actions =>
      { w with heap := heap_set w.heap p (_j4status_mpd_section_action_callback actions s event_id) }
    | _, _ => w
  | Event.start => _j4status_mpd_start w
  | Event.stop => _j4status_mpd_stop w

/-- Deliver a sequence of events in order. -/
def run (w : World) (events : List Event) : World :=
  events.foldl step w

/-- An arbitrary section value used in examples: idle, nothing pending. -/
def sample_section : J4statusMpdSection :=
  { «section» := [], mpd := [], used_tokens := TOKEN_FLAG_SONG ||| TOKEN_FLAG_STATE,
    format := [TOKEN_SONG, TOKEN_STATE], command := COMMAND_IDLE, pending := ACTION_NONE,
    current_song := some "Old".toList, current_filename := some "old".toList,
    state := STATE_PLAY, updating := false, «repeat» := false, random := false,
    single := false, consume := false, volume := -1 }

/-- A context holding the single section at address 1, with two configured actions. -/
def sample_context : J4statusPluginContext :=
  { config := { actions := some [("mouse:1".toList, 0), ("mouse:3".toList, 4)] },
    sections := [1], started := true }

/-- The section after the line handler has processed the given lines in order,
each delivered without a transport error. -/
def handle_lines (context : J4statusPluginContext) (self : Nat) (s : J4statusMpdSection)
    (lines : List CString) : J4statusMpdSection :=
  lines.foldl
    (fun s line => (_j4status_mpd_section_line_callback context self s line MPD_ERROR_SUCCESS).data)
    s

/-- The specification's reading of "the line's key is `key`, matched
ASCII-case-insensitively": the line is at least as long as the key and agrees with
it once ASCII letters are lowered. -/
def has_key (key line : CString) : Bool :=
  (line.take key.length).map g_ascii_tolower = key.map g_ascii_tolower

/-- The action-to-command table of the specification (section 4.2): the command
line for each of the six actions, given the playback state. -/
def spec_action_command : J4statusMpdAction → J4statusMpdSectionState → Option MpdCommandLine
  | ACTION_TOGGLE, STATE_PAUSE => some { command := "pause".toList, args := ["0".toList] }
  | ACTION_TOGGLE, _ => some { command := "pause".toList, args := ["1".toList] }
  | ACTION_PLAY, _ => some { command := "play".toList, args := [] }
  | ACTION_PAUSE, _ => some { command := "pause".toList, args := ["1".toList] }
  | ACTION_STOP, _ => some { command := "stop".toList, args := [] }
  | ACTION_NEXT, _ => some { command := "next".toList, args := [] }
  | ACTION_PREVIOUS, _ => some { command := "previous".toList, args := [] }
  | ACTION_NONE, _ => none

/-- The section of a freshly initialised plugin used in examples: created without
a password from a format that uses the song and state tokens. -/
def sample_fresh_section : J4statusMpdSection :=
  { «section» := [],
    mpd := [{ command := "command_list_begin".toList, args := [] },
            { command := "status".toList, args := [] },
            { command := "currentsong".toList, args := [] },
            { command := "command_list_end".toList, args := [] }],
    used_tokens := TOKEN_FLAG_SONG ||| TOKEN_FLAG_STATE,
    format := [TOKEN_SONG, TOKEN_STATE], command := COMMAND_QUERY, pending := ACTION_NONE,
    current_song := none, current_filename := none,
    state := STATE_PLAY, updating := false, «repeat» := false, random := false,
    single := false, consume := false, volume := -1 }

/-- A freshly initialised plugin used in examples: the fresh sample section at
address 1, not started yet. -/
def sample_world : World :=
  { context := { config := sample_context.config, sections := [1], started := false },
    heap := [(1, sample_fresh_section)] }

/-- The stored volume lies in the closed interval from -1 to 100. -/
def volume_in_range (s : J4statusMpdSection) : Prop :=
  -1 ≤ s.volume ∧ s.volume ≤ 100

/-- The assignments one line of a query response makes, read off the else-if
chain of the `COMMAND_QUERY` case of the line handler: for each field the value
the line stores, if it stores one.  `updating` tells whether the line sets the
database flag, and `title` is stored only while no explicit title is set. -/
structure LineEffect where
  state : Option J4statusMpdSectionState
  updating : Bool
  current_filename : Option CString
  title : Option CString
  «repeat» : Option Bool
  random : Option Bool
  single : Option Bool
  consume : Option Bool
  volume : Option Int
  deriving DecidableEq, Repr, Inhabited

/-- The line that assigns nothing. -/
def LineEffect.nothing : LineEffect :=
  { state := none, updating := false, current_filename := none, title := none,
    «repeat» := none, random := none, single := none, consume := none, volume := none }

/-- The assignments of one line other than `OK`, test by test as in the
`COMMAND_QUERY` case of `_j4status_mpd_section_line_callback`. -/
def line_effect (line : CString) : LineEffect :=
  if g_str_has_prefix line "state: ".toList then
    let state := line.drop (strlen "state: ".toList)
    if state = "play".toList then { LineEffect.nothing with state := some STATE_PLAY }
    else if state = "pause".toList then { LineEffect.nothing with state := some STATE_PAUSE }
    else if state = "stop".toList then { LineEffect.nothing with state := some STATE_STOP }
    else LineEffect.nothing
  else if g_str_has_prefix line "updating_db: ".toList then
    { LineEffect.nothing with updating := true }
  else if g_ascii_strncasecmp line "file: ".toList (strlen "file: ".toList) = 0 then
    let current_filename := g_path_get_basename (line.drop (strlen "file: ".toList))
    match g_utf8_strchr current_filename '.' with
    | some i => { LineEffect.nothing with current_filename := some (current_filename.take i) }
    | none => { LineEffect.nothing with current_filename := some current_filename }
  else if g_ascii_strncasecmp line "Title: ".toList (strlen "Title: ".toList) = 0 then
    { LineEffect.nothing with title := some (line.drop (strlen "Title: ".toList)) }
  else if g_str_has_prefix line "repeat: ".toList then
    { LineEffect.nothing with
      «repeat» := some (decide (line.get? (strlen "repeat: ".toList) = some '1')) }
  else if g_str_has_prefix line "random: ".toList then
    { LineEffect.nothing with
      random := some (decide (line.get? (strlen "random: ".toList) = some '1')) }
  else if g_str_has_prefix line "single: ".toList then
    { LineEffect.nothing with
      single := some (decide (line.get? (strlen "single: ".toList) = some '1')) }
  else if g_str_has_prefix line "consume: ".toList then
    { LineEffect.nothing with
      consume := some (decide (line.get? (strlen "consume: ".toList) = some '1')) }
  else if g_str_has_prefix line "volume: ".toList then
    { LineEffect.nothing with
      volume := some (CLAMP (g_ascii_strtoll (line.drop (strlen "volume: ".toList)) 100) (-1) 100) }
  else LineEffect.nothing

/-- Carry out the assignments of a line on a section. -/
def apply_effect (e : LineEffect) (s : J4statusMpdSection) : J4statusMpdSection :=
  { s with
    state := e.state.getD s.state,
    updating := e.updating || s.updating,
    current_filename := e.current_filename.orElse (fun _ => s.current_filename),
    current_song := s.current_song.orElse (fun _ => e.title),
    «repeat» := e.repeat.getD s.repeat,
    random := e.random.getD s.random,
    single := e.single.getD s.single,
    consume := e.consume.getD s.consume,
    volume := e.volume.getD s.volume }

/-- The assignments of two lines handled one after the other: the later value
wins, except for the title, where the earlier one does. -/
def LineEffect.followed_by (e1 e2 : LineEffect) : LineEffect :=
  { state := e2.state.orElse (fun _ => e1.state),
    updating := e1.updating || e2.updating,
    current_filename := e2.current_filename.orElse (fun _ => e1.current_filename),
    title := e1.title.orElse (fun _ => e2.title),
    «repeat» := e2.repeat.orElse (fun _ => e1.repeat),
    random := e2.random.orElse (fun _ => e1.random),
    single := e2.single.orElse (fun _ => e1.single),
    consume := e2.consume.orElse (fun _ => e1.consume),
    volume := e2.volume.orElse (fun _ => e1.volume) }

/-- The assignments of a list of lines handled in order. -/
def lines_effect (lines : List CString) : LineEffect :=
  lines.foldl (fun e line => e.followed_by (line_effect line)) LineEffect.nothing

/-- The specification's reading of `state: play|pause|stop`: the playback state a
line names, if it is one of these three lines. -/
def spec_state_of_line (line : CString) : Option J4statusMpdSectionState :=
  if line = "state: play".toList then some STATE_PLAY
  else if line = "state: pause".toList then some STATE_PAUSE
  else if line = "state: stop".toList then some STATE_STOP
  else none

/-- The specification's reading of `key 0|1`: for a line that starts with the key,
whether the character after the key is `1`. -/
def spec_flag_of_line (key line : CString) : Option Bool :=
  if key.isPrefixOf line then some (decide (line.get? key.length = some '1')) else none

/-- The last value seen: the value of the last line for which `f` gives one. -/
def spec_last_value {α : Type} (f : CString → Option α) (lines : List CString) : Option α :=
  (lines.filterMap f).getLast?

/-- The query batch as the specification lists it: begin a command list, ask for
the status, ask for the current song, end the command list. -/
def query_batch : List MpdCommandLine :=
  [{ command := "command_list_begin".toList, args := [] },
   { command := "status".toList, args := [] },
   { command := "currentsong".toList, args := [] },
   { command := "command_list_end".toList, args := [] }]

/-- No sent command line has an empty command word; the only place that sends the
empty word is the `ACTION_NONE` case behind `g_assert_not_reached ()`. -/
def assert_not_reached (s : J4statusMpdSection) : Prop :=
  ∀ c ∈ s.mpd, c.command ≠ []

/-- No `password` command line has been sent. -/
def never_sent_password (s : J4statusMpdSection) : Prop :=
  ∀ c ∈ s.mpd, c.command ≠ "password".toList

/-- The command words the callbacks send once a section exists: the idle and
interrupt commands, the query batch and the action commands. -/
def handler_words : List CString :=
  ["idle".toList, "noidle".toList, "command_list_begin".toList, "status".toList,
   "currentsong".toList, "command_list_end".toList, "pause".toList, "play".toList,
   "stop".toList, "next".toList, "previous".toList]

/-- The specification's recognised keys of a query response (section 4.3): `file: `
and `Title: ` are matched ASCII-case-insensitively, the other seven exactly. -/
def spec_has_recognised_key (line : CString) : Bool :=
  "state: ".toList.isPrefixOf line || "updating_db: ".toList.isPrefixOf line ||
  has_key "file: ".toList line || has_key "Title: ".toList line ||
  "repeat: ".toList.isPrefixOf line || "random: ".toList.isPrefixOf line ||
  "single: ".toList.isPrefixOf line || "consume: ".toList.isPrefixOf line ||
  "volume: ".toList.isPrefixOf line

/-! ## Theorems -/

/-- C1 (counterexample): the line `ACK [5@0] {play} no such command`, delivered
without a transport error while an action command is in flight, is not a
teardown: the handler returns 'continue', the section is not freed and its
address stays in the context's section list. -/
theorem C1_ack_line_is_not_torn_down :
    g_str_has_prefix "ACK [5@0] \x7bplay\x7d no such command".toList "ACK".toList = true ∧
    (_j4status_mpd_section_line_callback sample_context 1
      { sample_section with command := COMMAND_ACTION, pending := ACTION_PLAY }
      "ACK [5@0] \x7bplay\x7d no such command".toList MPD_ERROR_SUCCESS).ret = G_SOURCE_CONTINUE ∧
    (_j4status_mpd_section_line_callback sample_context 1
      { sample_section with command := COMMAND_ACTION, pending := ACTION_PLAY }
      "ACK [5@0] \x7bplay\x7d no such command".toList MPD_ERROR_SUCCESS).freed = false ∧
    1 ∈ (_j4status_mpd_section_line_callback sample_context 1
      { sample_section with command := COMMAND_ACTION, pending := ACTION_PLAY }
      "ACK [5@0] \x7bplay\x7d no such command".toList MPD_ERROR_SUCCESS).context.sections := by
  decide

/-- C1 (amended): for every connection state and every line that begins with
`ACK`, the handler tears the connection down exactly when it is called with a
transport error: then the address is removed from the context's section list,
the section is freed with nothing sent and 'remove source' is returned; without
a transport error the `ACK` line is ignored, the handler returns 'continue' and
context and section are unchanged (no command is issued). -/
theorem C1_teardown_only_on_transport_error (context : J4statusPluginContext) (self : Nat)
    (s : J4statusMpdSection) (line : CString) (error : mpd_error)
    (hack : g_str_has_prefix line "ACK".toList = true) :
    _j4status_mpd_section_line_callback context self s line error =
      if error = MPD_ERROR_SUCCESS then
        { ret := G_SOURCE_CONTINUE, context := context, data := s, freed := false }
      else
        { ret := G_SOURCE_REMOVE,
          context := { context with sections := g_list_remove context.sections self },
          data := s, freed := true } := by
  obtain ⟨rest, rfl⟩ : ∃ rest, line = "ACK".toList ++ rest := by
    have h := List.isPrefixOf_iff_prefix.mp hack
    obtain ⟨t, ht⟩ := h
    exact ⟨t, ht.symm⟩
  by_cases he : error = MPD_ERROR_SUCCESS
  · subst he
    simp [_j4status_mpd_section_line_callback, g_str_has_prefix, g_ascii_strncasecmp, strlen,
      g_ascii_tolower]
    cases s.command <;> simp
  · simp [_j4status_mpd_section_line_callback, he]

/-- Witness for C1 (amended) at the line `ACK [5@0] {play} no such command`. -/
theorem C1_teardown_only_on_transport_error_witness :
    _j4status_mpd_section_line_callback sample_context 1 sample_section
        "ACK [5@0] \x7bplay\x7d no such command".toList (MPD_ERROR_OTHER 5) =
      if MPD_ERROR_OTHER 5 = MPD_ERROR_SUCCESS then
        { ret := G_SOURCE_CONTINUE, context := sample_context, data := sample_section,
          freed := false }
      else
        { ret := G_SOURCE_REMOVE,
          context := { sample_context with sections := g_list_remove sample_context.sections 1 },
          data := sample_section, freed := true } :=
  C1_teardown_only_on_transport_error sample_context 1 sample_section
    "ACK [5@0] \x7bplay\x7d no such command".toList (MPD_ERROR_OTHER 5) (by decide)

/-- GLib rejects the base 100: `g_ascii_strtoll` then returns 0 for every text. -/
theorem g_ascii_strtoll_base_100 (text : CString) : g_ascii_strtoll text 100 = 0 := by
  simp [g_ascii_strtoll, g_parse_long_long, G_MAXINT64]

/-- C2 (code as written): the `volume: ` branch calls `g_ascii_strtoll` with base
100, which GLib rejects with the result 0, so every `volume: <n>` line handled
while the active command is QUERY stores 0; in particular `volume: 50` stores 0
where the claim requires 50, although the same text parses to 50 in base 10. -/
theorem C2_volume_line_stores_zero (context : J4statusPluginContext) (self : Nat)
    (s : J4statusMpdSection) (text : CString) :
    (_j4status_mpd_section_line_callback context self { s with command := COMMAND_QUERY }
      ("volume: ".toList ++ text) MPD_ERROR_SUCCESS).data.volume = 0 ∧
    (_j4status_mpd_section_line_callback sample_context 1
      { sample_section with command := COMMAND_QUERY }
      "volume: 50".toList MPD_ERROR_SUCCESS).data.volume = 0 ∧
    CLAMP (g_ascii_strtoll "50".toList 10) (-1) 100 = 50 := by
  refine ⟨?_, by decide, by decide⟩
  simp [_j4status_mpd_section_line_callback, g_str_has_prefix, g_ascii_strncasecmp, strlen,
    g_ascii_tolower, g_ascii_strtoll_base_100, CLAMP]

/-- C4: when the pending action is toggle, any dispatch sends exactly one command
line, `pause` with the single argument "0" if the playback state is paused and
"1" for every other playback state. -/
theorem C4_toggle_sends_pause (s : J4statusMpdSection) (command : J4statusMpdCommand)
    (password : Option CString) (h : s.pending = ACTION_TOGGLE) :
    (_j4status_mpd_section_command s command password).mpd =
      s.mpd ++ [{ command := "pause".toList,
                  args := [if s.state = STATE_PAUSE then "0".toList else "1".toList] }] := by
  simp [_j4status_mpd_section_command, h, mpd_async_send_command, va_args]
  split <;> simp [va_args]

/-- Witness for C4: a stopped section with toggle pending sends `pause 1`. -/
theorem C4_toggle_sends_pause_witness :
    (_j4status_mpd_section_command
        { sample_section with pending := ACTION_TOGGLE, state := STATE_STOP }
        COMMAND_QUERY none).mpd =
      sample_section.mpd ++ [{ command := "pause".toList,
                               args := [if STATE_STOP = STATE_PAUSE then "0".toList
                                        else "1".toList] }] :=
  C4_toggle_sends_pause { sample_section with pending := ACTION_TOGGLE, state := STATE_STOP }
    COMMAND_QUERY none rfl

/-- C5: for each pending action other than toggle, any dispatch sends exactly one
command line, fixed by the action alone: `play`, `stop`, `next` and `previous`
without argument and `pause` with the argument "1". -/
theorem C5_action_table (s : J4statusMpdSection) (command : J4statusMpdCommand)
    (password : Option CString) (hnone : s.pending ≠ ACTION_NONE)
    (htoggle : s.pending ≠ ACTION_TOGGLE) :
    (_j4status_mpd_section_command s command password).mpd =
      s.mpd ++ [match s.pending with
        | ACTION_PLAY => { command := "play".toList, args := [] }
        | ACTION_PAUSE => { command := "pause".toList, args := ["1".toList] }
        | ACTION_STOP => { command := "stop".toList, args := [] }
        | ACTION_NEXT => { command := "next".toList, args := [] }
        | ACTION_PREVIOUS => { command := "previous".toList, args := [] }
        | _ => { command := [], args := [] }] := by
  cases hp : s.pending <;>
    simp_all [_j4status_mpd_section_command, mpd_async_send_command, va_args]

/-- Witness for C5: with `next` pending a requested idle dispatch sends `next`. -/
theorem C5_action_table_witness :
    (_j4status_mpd_section_command { sample_section with pending := ACTION_NEXT }
        COMMAND_IDLE none).mpd =
      sample_section.mpd ++ [{ command := "next".toList, args := [] }] :=
  C5_action_table { sample_section with pending := ACTION_NEXT } COMMAND_IDLE none
    (by decide) (by decide)

/-- The mask test of the idle dispatch for a single flag is the test of that bit. -/
theorem and_flag_ne_zero (n k : Nat) : (n &&& (1 <<< k) ≠ 0) ↔ n.testBit k = true := by
  rw [Nat.one_shiftLeft]
  constructor
  · intro h
    by_contra hb
    apply h
    apply Nat.eq_of_testBit_eq
    intro i
    simp only [Nat.testBit_and, Nat.testBit_two_pow, Nat.zero_testBit]
    by_cases hki : k = i
    · subst hki; simp [hb]
    · simp [hki]
  · intro hb h
    have := congrArg (fun m => m.testBit k) h
    simp [Nat.testBit_two_pow, hb] at this

/-- A bitwise or is zero only when both operands are. -/
theorem lor_eq_zero (x y : Nat) (h : x ||| y = 0) : x = 0 ∧ y = 0 := by
  have hb : ∀ i, x.testBit i = false ∧ y.testBit i = false := by
    intro i
    have := congrArg (fun m => m.testBit i) h
    simpa [Nat.testBit_or] using this
  exact ⟨Nat.eq_of_testBit_eq (fun i => by simp [(hb i).1]),
    Nat.eq_of_testBit_eq (fun i => by simp [(hb i).2])⟩

/-- The mask test for the song and state flags together. -/
theorem and_state_song_ne_zero (n : Nat) :
    (n &&& (TOKEN_FLAG_STATE ||| TOKEN_FLAG_SONG) ≠ 0) ↔
      (n.testBit TOKEN_SONG = true ∨ n.testBit TOKEN_STATE = true) := by
  have h0 := and_flag_ne_zero n TOKEN_SONG
  have h1 := and_flag_ne_zero n TOKEN_STATE
  rw [← h0, ← h1]
  have hd : n &&& (TOKEN_FLAG_STATE ||| TOKEN_FLAG_SONG) =
      (n &&& (1 <<< TOKEN_STATE)) ||| (n &&& (1 <<< TOKEN_SONG)) := by
    simp only [TOKEN_FLAG_STATE, TOKEN_FLAG_SONG]
    exact Nat.and_or_distrib_left n _ _
  rw [hd]
  constructor
  · intro h
    by_contra hc
    push_neg at hc
    apply h
    rw [hc.1, hc.2]
    rfl
  · intro h hz
    have hz' := lor_eq_zero _ _ hz
    rcases h with h | h
    · exact h hz'.2
    · exact h hz'.1

/-- C6: with no pending action the idle dispatch sends one `idle` line whose
arguments are the categories selected by the used-token mask, in the order
player, database, options, mixer: `player` iff the song or the state token is
used, `database`, `options` and `mixer` iff the database, options and volume
token is used; a mask with only the volume token gives `idle mixer`. -/
theorem C6_idle_categories (s : J4statusMpdSection) (password : Option CString)
    (h : s.pending = ACTION_NONE) :
    (_j4status_mpd_section_command s COMMAND_IDLE password).mpd =
      s.mpd ++ [{ command := "idle".toList,
                  args :=
                    (if s.used_tokens.testBit TOKEN_SONG ∨ s.used_tokens.testBit TOKEN_STATE
                      then ["player".toList] else []) ++
                    (if s.used_tokens.testBit TOKEN_DATABASE then ["database".toList] else []) ++
                    (if s.used_tokens.testBit TOKEN_OPTIONS then ["options".toList] else []) ++
                    (if s.used_tokens.testBit TOKEN_VOLUME then ["mixer".toList] else []) }] ∧
    (_j4status_mpd_section_command { s with used_tokens := TOKEN_FLAG_VOLUME }
        COMMAND_IDLE password).mpd =
      s.mpd ++ [{ command := "idle".toList, args := ["mixer".toList] }] := by
  have key : ∀ s : J4statusMpdSection, s.pending = ACTION_NONE → (_j4status_mpd_section_command s COMMAND_IDLE password).mpd =
      s.mpd ++ [{ command := "idle".toList,
                  args :=
                    (if s.used_tokens.testBit TOKEN_SONG ∨ s.used_tokens.testBit TOKEN_STATE
                      then ["player".toList] else []) ++
                    (if s.used_tokens.testBit TOKEN_DATABASE then ["database".toList] else []) ++
                    (if s.used_tokens.testBit TOKEN_OPTIONS then ["options".toList] else []) ++
                    (if s.used_tokens.testBit TOKEN_VOLUME then ["mixer".toList] else []) }] := by
    intro s h
    have hp := and_state_song_ne_zero s.used_tokens
    have hd := and_flag_ne_zero s.used_tokens TOKEN_DATABASE
    have ho := and_flag_ne_zero s.used_tokens TOKEN_OPTIONS
    have hv := and_flag_ne_zero s.used_tokens TOKEN_VOLUME
    simp only [_j4status_mpd_section_command, h, mpd_async_send_command, ne_eq,
      not_true_eq_false, if_false, TOKEN_FLAG_DATABASE, TOKEN_FLAG_OPTIONS, TOKEN_FLAG_VOLUME]
    by_cases b0 : s.used_tokens.testBit TOKEN_SONG = true ∨ s.used_tokens.testBit TOKEN_STATE = true <;>
    by_cases b2 : s.used_tokens.testBit TOKEN_DATABASE = true <;>
    by_cases b3 : s.used_tokens.testBit TOKEN_OPTIONS = true <;>
    by_cases b4 : s.used_tokens.testBit TOKEN_VOLUME = true <;>
    simp [hp.mpr, hd.mpr, ho.mpr, hv.mpr, b0, b2, b3, b4, va_args,
      (not_congr hp).mpr, (not_congr hd).mpr, (not_congr ho).mpr, (not_congr hv).mpr]
  refine ⟨key s h, ?_⟩
  rw [key { s with used_tokens := TOKEN_FLAG_VOLUME } h]
  have e0 : TOKEN_FLAG_VOLUME.testBit TOKEN_SONG = false := by decide
  have e1 : TOKEN_FLAG_VOLUME.testBit TOKEN_STATE = false := by decide
  have e2 : TOKEN_FLAG_VOLUME.testBit TOKEN_DATABASE = false := by decide
  have e3 : TOKEN_FLAG_VOLUME.testBit TOKEN_OPTIONS = false := by decide
  have e4 : TOKEN_FLAG_VOLUME.testBit TOKEN_VOLUME = true := by decide
  simp [e0, e1, e2, e3, e4]

/-- Witness for C6: the sample section uses the song and state tokens only and
subscribes to `player` alone. -/
theorem C6_idle_categories_witness :
    (_j4status_mpd_section_command sample_section COMMAND_IDLE none).mpd =
      sample_section.mpd ++ [{ command := "idle".toList, args := ["player".toList] }] ∧
    (_j4status_mpd_section_command { sample_section with used_tokens := TOKEN_FLAG_VOLUME }
        COMMAND_IDLE none).mpd =
      sample_section.mpd ++ [{ command := "idle".toList, args := ["mixer".toList] }] :=
  ⟨(C6_idle_categories sample_section none rfl).1.trans (by decide),
   (C6_idle_categories sample_section none rfl).2⟩

/-- Cutting a string at the offset found by `g_utf8_strchr` keeps the characters
before the leftmost occurrence; without an occurrence the string is kept whole. -/
theorem take_strchr_eq_takeWhile (b : CString) (c : Char) :
    (match g_utf8_strchr b c with
      | some i => b.take i
      | none => b) = b.takeWhile (fun x => x != c) := by
  induction b with
  | nil => simp [g_utf8_strchr]
  | cons x rest ih =>
    by_cases hx : x = c
    · simp [g_utf8_strchr, hx]
    · simp only [g_utf8_strchr, hx, if_false]
      cases hr : g_utf8_strchr rest c with
      | none => simp [hr] at ih; simp [List.takeWhile_cons, hx, ← ih]
      | some i => simp [hr] at ih; simp [List.takeWhile_cons, hx, ← ih]

/-- C9 (code as written): a `file: ` line handled while the active command is
QUERY stores the base name of the path cut at its leftmost '.', not at its last
one: `file: music/a.b.mp3` stores `a` where the claim requires `a.b`, while
`file: song.mp3` stores `song`. -/
theorem C9_file_line_cuts_at_first_dot (context : J4statusPluginContext) (self : Nat)
    (s : J4statusMpdSection) (path : CString) :
    (_j4status_mpd_section_line_callback context self { s with command := COMMAND_QUERY }
      ("file: ".toList ++ path) MPD_ERROR_SUCCESS).data.current_filename =
        some ((g_path_get_basename path).takeWhile (fun x => x != '.')) ∧
    (_j4status_mpd_section_line_callback sample_context 1
      { sample_section with command := COMMAND_QUERY }
      "file: music/a.b.mp3".toList MPD_ERROR_SUCCESS).data.current_filename = some "a".toList ∧
    (_j4status_mpd_section_line_callback sample_context 1
      { sample_section with command := COMMAND_QUERY }
      "file: song.mp3".toList MPD_ERROR_SUCCESS).data.current_filename = some "song".toList := by
  refine ⟨?_, by decide, by decide⟩
  rw [← take_strchr_eq_takeWhile]
  simp [_j4status_mpd_section_line_callback, g_str_has_prefix, g_ascii_strncasecmp, strlen,
    g_ascii_tolower]
  cases g_utf8_strchr (g_path_get_basename path) '.' <;> simp

/-- C10 (counterexample): handling `changed: player` while idle leaves the
filename-derived title in place: the sample section still holds `old`. -/
theorem C10_changed_player_keeps_fallback_title :
    sample_section.command = COMMAND_IDLE ∧
    (_j4status_mpd_section_line_callback sample_context 1 sample_section
      "changed: player".toList MPD_ERROR_SUCCESS).data.current_filename = some "old".toList ∧
    (_j4status_mpd_section_line_callback sample_context 1 sample_section
      "changed: player".toList MPD_ERROR_SUCCESS).data.current_filename ≠ none := by
  decide

/-- C10 (amended): handling `changed: player` while the active command is IDLE
clears the explicit track title and nothing else: the filename-derived title and
every other field are unchanged, nothing is sent and the handler returns
'continue'. -/
theorem C10_changed_player_clears_explicit_title (context : J4statusPluginContext) (self : Nat)
    (s : J4statusMpdSection) (h : s.command = COMMAND_IDLE) :
    _j4status_mpd_section_line_callback context self s "changed: player".toList
        MPD_ERROR_SUCCESS =
      { ret := G_SOURCE_CONTINUE, context := context, data := { s with current_song := none },
        freed := false } := by
  simp [_j4status_mpd_section_line_callback, h, g_str_has_prefix, strlen]

/-- Witness for C10 (amended) at the sample section. -/
theorem C10_changed_player_clears_explicit_title_witness :
    _j4status_mpd_section_line_callback sample_context 1 sample_section
        "changed: player".toList MPD_ERROR_SUCCESS =
      { ret := G_SOURCE_CONTINUE, context := sample_context,
        data := { sample_section with current_song := none }, freed := false } :=
  C10_changed_player_clears_explicit_title sample_context 1 sample_section rfl

/-! ### Heap lemmas -/

/-- A section read from the heap is one of its entries. -/
theorem heap_get_mem {heap : List (Nat × J4statusMpdSection)} {p : Nat} {s : J4statusMpdSection}
    (h : heap_get heap p = some s) : (p, s) ∈ heap := by
  induction heap with
  | nil => simp [heap_get] at h
  | cons e rest ih =>
    obtain ⟨a, t⟩ := e
    by_cases ha : a = p
    · simp [heap_get, ha] at h
      simp [ha, h]
    · simp [heap_get, ha] at h
      exact List.mem_cons_of_mem _ (ih h)

/-- Reading back the address that was just written. -/
theorem heap_get_set_self {heap : List (Nat × J4statusMpdSection)} {p : Nat}
    {s : J4statusMpdSection} (s' : J4statusMpdSection) (h : heap_get heap p = some s) :
    heap_get (heap_set heap p s') p = some s' := by
  induction heap with
  | nil => simp [heap_get] at h
  | cons e rest ih =>
    obtain ⟨a, t⟩ := e
    by_cases ha : a = p
    · simp [heap_set, heap_get, ha]
    · simp [heap_get, ha] at h
      simp [heap_set, heap_get, ha, ih h]

/-- Every entry of a heap after a write is an old entry or the written one. -/
theorem mem_heap_set {heap : List (Nat × J4statusMpdSection)} {p : Nat}
    {s' : J4statusMpdSection} {e : Nat × J4statusMpdSection}
    (h : e ∈ heap_set heap p s') : e ∈ heap ∨ e.2 = s' := by
  induction heap with
  | nil => simp [heap_set] at h
  | cons x rest ih =>
    obtain ⟨a, t⟩ := x
    by_cases ha : a = p
    · simp [heap_set, ha] at h
      rcases h with h | h
      · right; simp [h]
      · left; exact List.mem_cons_of_mem _ h
    · simp [heap_set, ha] at h
      rcases h with h | h
      · left; simp [h]
      · rcases ih h with h' | h'
        · left; exact List.mem_cons_of_mem _ h'
        · right; exact h'

/-- Every entry of a heap after a free is an old entry. -/
theorem mem_section_free {heap : List (Nat × J4statusMpdSection)} {p : Nat}
    {e : Nat × J4statusMpdSection} (h : e ∈ _j4status_mpd_section_free heap p) : e ∈ heap := by
  induction heap with
  | nil => simp [_j4status_mpd_section_free] at h
  | cons x rest ih =>
    obtain ⟨a, t⟩ := x
    by_cases ha : a = p
    · simp [_j4status_mpd_section_free, ha] at h
      exact List.mem_cons_of_mem _ h
    · simp [_j4status_mpd_section_free, ha] at h
      rcases h with h | h
      · simp [h]
      · exact List.mem_cons_of_mem _ (ih h)

/-! ### Volume range -/

/-- The macro `CLAMP` with bounds -1 and 100 lands in the interval. -/
theorem CLAMP_in_range (x : Int) : -1 ≤ CLAMP x (-1) 100 ∧ CLAMP x (-1) 100 ≤ 100 := by
  unfold CLAMP
  split
  · omega
  · split <;> omega

/-- Dispatching a command does not touch the volume. -/
theorem section_command_volume (s : J4statusMpdSection) (command : J4statusMpdCommand)
    (password : Option CString) :
    (_j4status_mpd_section_command s command password).volume = s.volume := by
  by_cases hp : s.pending = ACTION_NONE <;> cases command <;>
    simp [_j4status_mpd_section_command, hp]

/-- The action callback does not touch the volume. -/
theorem action_callback_volume (actions : List (CString × Fin 6)) (s : J4statusMpdSection)
    (event_id : CString) :
    (_j4status_mpd_section_action_callback actions s event_id).volume = s.volume := by
  by_cases hp : s.pending = ACTION_NONE <;> cases hc : s.command <;>
    simp [_j4status_mpd_section_action_callback, hp, hc]

/-- With a transport error the line handler takes the `fail` path. -/
theorem line_callback_error (context : J4statusPluginContext) (self : Nat)
    (s : J4statusMpdSection) (line : CString) (error : mpd_error)
    (he : error ≠ MPD_ERROR_SUCCESS) :
    _j4status_mpd_section_line_callback context self s line error =
      { ret := G_SOURCE_REMOVE,
        context := { context with sections := g_list_remove context.sections self },
        data := s, freed := true } := by
  simp [_j4status_mpd_section_line_callback, he]

/-- Without a transport error the line handler returns 'continue', frees nothing
and leaves the context as it is. -/
theorem line_callback_success (context : J4statusPluginContext) (self : Nat)
    (s : J4statusMpdSection) (line : CString) :
    (_j4status_mpd_section_line_callback context self s line MPD_ERROR_SUCCESS).ret =
        G_SOURCE_CONTINUE ∧
    (_j4status_mpd_section_line_callback context self s line MPD_ERROR_SUCCESS).context =
        context ∧
    (_j4status_mpd_section_line_callback context self s line MPD_ERROR_SUCCESS).freed =
        false := by
  simp [_j4status_mpd_section_line_callback]

/-- A property of both branches of a conditional holds of the conditional. -/
theorem ite_prop {α : Type} (P : α → Prop) (c : Prop) [Decidable c] (a b : α)
    (ha : P a) (hb : P b) : P (if c then a else b) := by
  split <;> assumption

/-- The line handler keeps the volume in range. -/
theorem line_callback_volume (context : J4statusPluginContext) (self : Nat)
    (s : J4statusMpdSection) (line : CString) (error : mpd_error) (h : volume_in_range s) :
    volume_in_range (_j4status_mpd_section_line_callback context self s line error).data := by
  have hcmd : ∀ c pw, volume_in_range (_j4status_mpd_section_command s c pw) := by
    intro c pw
    unfold volume_in_range
    rw [section_command_volume]
    exact h
  have hupd : ∀ c pw, volume_in_range
      (_j4status_mpd_section_command (_j4status_mpd_section_update s) c pw) := by
    intro c pw
    unfold volume_in_range
    rw [section_command_volume]
    exact h
  have hpend : ∀ c pw, volume_in_range
      (_j4status_mpd_section_command { s with pending := ACTION_NONE } c pw) := by
    intro c pw
    unfold volume_in_range
    rw [section_command_volume]
    exact h
  by_cases he : error = MPD_ERROR_SUCCESS
  · subst he
    unfold _j4status_mpd_section_line_callback
    rw [if_neg (by simp)]
    cases hc : s.command <;> dsimp only <;>
      repeat' first
        | exact h
        | exact hcmd _ _
        | exact hupd _ _
        | exact hpend _ _
        | (dsimp only [volume_in_range]; exact CLAMP_in_range _)
        | apply ite_prop volume_in_range
        | split
  · rw [line_callback_error _ _ _ _ _ he]
    exact h

/-! ### Invariants of the event loop -/

/-- The start callback keeps a property of all sections that
`_j4status_mpd_section_start` keeps. -/
theorem start_invariant (P : J4statusMpdSection → Prop)
    (hstart : ∀ s, P s → P (_j4status_mpd_section_start s))
    (w : World) (h : ∀ e ∈ w.heap, P e.2) : ∀ e ∈ (_j4status_mpd_start w).heap, P e.2 := by
  unfold _j4status_mpd_start
  dsimp only
  generalize w.context.sections = sections
  generalize w.heap = heap at h
  induction sections generalizing heap with
  | nil => simpa using h
  | cons p rest ih =>
    rw [List.foldl_cons]
    apply ih
    cases hg : heap_get heap p with
    | none => simpa using h
    | some s =>
      dsimp only
      intro e he
      rcases mem_heap_set he with he' | he'
      · exact h e he'
      · rw [he']
        exact hstart s (h _ (heap_get_mem hg))

/-- One event keeps a property of all sections that the three callbacks keep. -/
theorem step_invariant (P : J4statusMpdSection → Prop)
    (hline : ∀ context self s line error, P s →
      P (_j4status_mpd_section_line_callback context self s line error).data)
    (haction : ∀ actions s event_id, P s →
      P (_j4status_mpd_section_action_callback actions s event_id))
    (hstart : ∀ s, P s → P (_j4status_mpd_section_start s))
    (w : World) (event : Event) (h : ∀ e ∈ w.heap, P e.2) :
    ∀ e ∈ (step w event).heap, P e.2 := by
  cases event with
  | line p line error =>
    cases hg : heap_get w.heap p with
    | none =>
      simp only [step, hg]
      exact h
    | some s =>
      simp only [step, hg]
      split
      · intro e he
        exact h e (mem_section_free he)
      · intro e he
        rcases mem_heap_set he with he' | he'
        · exact h e he'
        · rw [he']
          exact hline _ _ _ _ _ (h _ (heap_get_mem hg))
  | action p event_id =>
    cases hg : heap_get w.heap p with
    | none =>
      simp only [step, hg]
      exact h
    | some s =>
      cases ha : w.context.config.actions with
      | none =>
        simp only [step, hg, ha]
        exact h
      | some actions =>
        simp only [step, hg, ha]
        intro e he
        rcases mem_heap_set he with he' | he'
        · exact h e he'
        · rw [he']
          exact haction _ _ _ (h _ (heap_get_mem hg))
  | start => exact start_invariant P hstart w h
  | stop => exact h

/-- A sequence of events keeps a property of all sections that the three
callbacks keep. -/
theorem run_invariant (P : J4statusMpdSection → Prop)
    (hline : ∀ context self s line error, P s →
      P (_j4status_mpd_section_line_callback context self s line error).data)
    (haction : ∀ actions s event_id, P s →
      P (_j4status_mpd_section_action_callback actions s event_id))
    (hstart : ∀ s, P s → P (_j4status_mpd_section_start s))
    (w : World) (events : List Event) (h : ∀ e ∈ w.heap, P e.2) :
    ∀ e ∈ (run w events).heap, P e.2 := by
  unfold run
  induction events generalizing w with
  | nil => simpa using h
  | cons event rest ih =>
    rw [List.foldl_cons]
    exact ih _ (step_invariant P hline haction hstart w event h)

/-- A section made by `_j4status_mpd_section_new` has volume -1, no pending
action and both titles absent. -/
theorem section_new_fresh {source insert : Bool} {format : List Nat} {used_tokens : Nat}
    {password : Option CString} {s : J4statusMpdSection}
    (h : _j4status_mpd_section_new source insert format used_tokens password = some s) :
    s.volume = -1 ∧ s.pending = ACTION_NONE ∧ s.current_song = none ∧
      s.current_filename = none := by
  unfold _j4status_mpd_section_new at h
  cases source <;> cases insert <;> simp at h
  obtain ⟨hu, h⟩ := h
  cases password with
  | none =>
    simp at h
    subst h
    simp [_j4status_mpd_section_command]
  | some pw =>
    simp at h
    subst h
    simp [_j4status_mpd_section_command]

/-- The heap right after `_j4status_mpd_init` holds exactly the new section. -/
theorem init_heap {config : J4statusMpdConfig} {host password : Option CString}
    {source insert : Bool} {format : List Nat} {used_tokens addr : Nat} {w : World}
    (h : _j4status_mpd_init config host password source insert format used_tokens addr = some w) :
    ∃ s, _j4status_mpd_section_new source insert format used_tokens password = some s ∧
      w.heap = [(addr, s)] ∧ w.context.sections = [addr] ∧ w.context.started = false ∧
      w.context.config = config := by
  unfold _j4status_mpd_init at h
  cases host with
  | none => simp at h
  | some hostname =>
    cases hn : _j4status_mpd_section_new source insert format used_tokens password with
    | none => simp [hn] at h
    | some s =>
      simp [hn] at h
      subst h
      exact ⟨s, rfl, rfl, rfl, rfl, rfl⟩

/-- C3: in every state reached from a freshly initialised plugin by any sequence
of lines (with or without transport error), action requests, start and stop
events, every live section has its volume in the closed interval from -1 to 100. -/
theorem C3_volume_always_in_range (config : J4statusMpdConfig) (host password : Option CString)
    (source insert : Bool) (format : List Nat) (used_tokens addr : Nat) (w : World)
    (events : List Event) (p : Nat) (s : J4statusMpdSection)
    (hinit : _j4status_mpd_init config host password source insert format used_tokens addr
      = some w)
    (hs : heap_get (run w events).heap p = some s) :
    -1 ≤ s.volume ∧ s.volume ≤ 100 := by
  obtain ⟨s0, hnew, hheap, -, -, -⟩ := init_heap hinit
  have h0 : ∀ e ∈ w.heap, volume_in_range e.2 := by
    intro e he
    rw [hheap] at he
    simp at he
    subst he
    have := (section_new_fresh hnew).1
    unfold volume_in_range
    dsimp only
    omega
  have hrun := run_invariant volume_in_range
    (fun context self s line error h => line_callback_volume context self s line error h)
    (fun actions s event_id h => by
      unfold volume_in_range at *
      rw [action_callback_volume]
      exact h)
    (fun s h => by
      unfold volume_in_range _j4status_mpd_section_start at *
      split <;> exact h)
    w events h0
  exact hrun _ (heap_get_mem hs)

/-- Witness for C3: after the fresh sample plugin handles `volume: 250` the stored
volume is 0, inside the interval. -/
theorem C3_volume_always_in_range_witness :
    heap_get (run sample_world [Event.line 1 "volume: 250".toList MPD_ERROR_SUCCESS]).heap 1 =
        some { sample_fresh_section with volume := 0 } ∧
    -1 ≤ ({ sample_fresh_section with volume := 0 } : J4statusMpdSection).volume ∧
    ({ sample_fresh_section with volume := 0 } : J4statusMpdSection).volume ≤ 100 :=
  ⟨by decide,
   C3_volume_always_in_range sample_context.config (some "localhost".toList) none true true
     [TOKEN_SONG, TOKEN_STATE] (TOKEN_FLAG_SONG ||| TOKEN_FLAG_STATE) 1 sample_world
     [Event.line 1 "volume: 250".toList MPD_ERROR_SUCCESS] 1
     { sample_fresh_section with volume := 0 } (by decide) (by decide)⟩

/-! ### Action preemption -/

/-- A line delivered without transport error to a live section rewrites that
section in place and leaves the context alone. -/
theorem step_line_success (w : World) (p : Nat) (s : J4statusMpdSection) (line : CString)
    (hs : heap_get w.heap p = some s) :
    step w (Event.line p line MPD_ERROR_SUCCESS) =
      { context := w.context,
        heap := heap_set w.heap p
          (_j4status_mpd_section_line_callback w.context p s line MPD_ERROR_SUCCESS).data } := by
  obtain ⟨-, hctx, hfreed⟩ := line_callback_success w.context p s line
  simp only [step, hs, hfreed, hctx]
  simp

/-- With an action pending every dispatch sends that action's command line, as
given by the specification's table, and makes ACTION the active command. -/
theorem section_command_pending (s : J4statusMpdSection) (command : J4statusMpdCommand)
    (password : Option CString) (h : s.pending ≠ ACTION_NONE) :
    ∃ c, spec_action_command s.pending s.state = some c ∧
      _j4status_mpd_section_command s command password =
        { s with mpd := s.mpd ++ [c], command := COMMAND_ACTION } := by
  cases hp : s.pending <;> cases hst : s.state <;>
    simp_all [_j4status_mpd_section_command, mpd_async_send_command, va_args,
      spec_action_command]

/-- A value looked up in the action table is never the 'none' action. -/
theorem lookup_ne_none (actions : List (CString × Fin 6)) (event_id : CString) :
    J4statusMpdAction.ofUInt (g_hash_table_lookup actions event_id) ≠ ACTION_NONE := by
  induction actions with
  | nil => simp [g_hash_table_lookup, J4statusMpdAction.ofUInt]
  | cons e rest ih =>
    obtain ⟨k, v⟩ := e
    by_cases hk : k = event_id
    · simp only [g_hash_table_lookup, hk, if_true]
      fin_cases v <;> simp [J4statusMpdAction.ofUInt]
    · simp only [g_hash_table_lookup, hk, if_false]
      exact ih

/-- A `changed: ` notification handled while idle sends nothing and keeps the
active command, the pending action and the playback state. -/
theorem idle_changed_frame (context : J4statusPluginContext) (self : Nat)
    (s : J4statusMpdSection) (x : CString) (hc : s.command = COMMAND_IDLE) :
    (_j4status_mpd_section_line_callback context self s ("changed: ".toList ++ x)
        MPD_ERROR_SUCCESS).data.command = COMMAND_IDLE ∧
    (_j4status_mpd_section_line_callback context self s ("changed: ".toList ++ x)
        MPD_ERROR_SUCCESS).data.pending = s.pending ∧
    (_j4status_mpd_section_line_callback context self s ("changed: ".toList ++ x)
        MPD_ERROR_SUCCESS).data.mpd = s.mpd ∧
    (_j4status_mpd_section_line_callback context self s ("changed: ".toList ++ x)
        MPD_ERROR_SUCCESS).data.state = s.state := by
  simp only [_j4status_mpd_section_line_callback, hc]
  simp [ g_str_has_prefix, strlen]
  split_ifs <;> simp [hc]

/-- Any number of `changed: ` notifications delivered to an idle section leave it
idle, with the same pending action, playback state and sent commands. -/
theorem run_changed_lines (p : Nat) (subsystems : List CString) (w : World)
    (s : J4statusMpdSection) (hs : heap_get w.heap p = some s)
    (hc : s.command = COMMAND_IDLE) :
    ∃ s', heap_get (run w (subsystems.map
        (fun x => Event.line p ("changed: ".toList ++ x) MPD_ERROR_SUCCESS))).heap p = some s' ∧
      s'.command = COMMAND_IDLE ∧ s'.pending = s.pending ∧ s'.mpd = s.mpd ∧
      s'.state = s.state ∧
      (run w (subsystems.map
        (fun x => Event.line p ("changed: ".toList ++ x) MPD_ERROR_SUCCESS))).context =
        w.context := by
  induction subsystems generalizing w s with
  | nil => exact ⟨s, by simpa [run] using hs, hc, rfl, rfl, rfl, rfl⟩
  | cons x rest ih =>
    obtain ⟨h1, h2, h3, h4⟩ := idle_changed_frame w.context p s x hc
    have hstep := step_line_success w p s ("changed: ".toList ++ x) hs
    have hget := heap_get_set_self
      (_j4status_mpd_section_line_callback w.context p s ("changed: ".toList ++ x)
        MPD_ERROR_SUCCESS).data hs
    obtain ⟨s', g1, g2, g3, g4, g5, g6⟩ :=
      ih (step w (Event.line p ("changed: ".toList ++ x) MPD_ERROR_SUCCESS)) _
        (by rw [hstep]; exact hget) h1
    refine ⟨s', ?_, g2, g3.trans h2, g4.trans h3, g5.trans h4, ?_⟩
    · simpa [run] using g1
    · have : (step w (Event.line p ("changed: ".toList ++ x) MPD_ERROR_SUCCESS)).context =
          w.context := by rw [hstep]
      rw [← this]
      simpa [run] using g6

/-- From a live section that is idle with nothing pending, an action request, then
any number of `changed: ` lines, then `OK`, sends exactly two command lines,
`noidle` followed by the command of the action read from the table; stated with
the table read-out as the callback computes it. -/
theorem action_preempts_idle_lookup (w : World) (p : Nat) (s : J4statusMpdSection)
    (actions : List (CString × Fin 6)) (event_id : CString) (subsystems : List CString)
    (hs : heap_get w.heap p = some s)
    (hactions : w.context.config.actions = some actions)
    (hcommand : s.command = COMMAND_IDLE) (hpending : s.pending = ACTION_NONE) :
    ∃ s' c,
      heap_get (run w (Event.action p event_id ::
        (subsystems.map (fun x => Event.line p ("changed: ".toList ++ x) MPD_ERROR_SUCCESS) ++
          [Event.line p "OK".toList MPD_ERROR_SUCCESS]))).heap p = some s' ∧
      spec_action_command
        (J4statusMpdAction.ofUInt (g_hash_table_lookup actions event_id)) s.state = some c ∧
      s'.mpd = s.mpd ++ [{ command := "noidle".toList, args := [] }, c] ∧
      s'.command = COMMAND_ACTION ∧
      s'.pending = J4statusMpdAction.ofUInt (g_hash_table_lookup actions event_id) ∧
      s'.pending ≠ ACTION_NONE := by
  have hne := lookup_ne_none actions event_id
  -- the action request
  have hact : _j4status_mpd_section_action_callback actions s event_id =
      { s with mpd := s.mpd ++ [{ command := "noidle".toList, args := [] }],
               pending := J4statusMpdAction.ofUInt (g_hash_table_lookup actions event_id) } := by
    simp [_j4status_mpd_section_action_callback, hpending, hcommand, mpd_async_send_command,
      va_args]
  have hstep1 : step w (Event.action p event_id) =
      { w with heap := heap_set w.heap p (_j4status_mpd_section_action_callback actions s event_id) } := by
    simp only [step, hs, hactions]
  have hget1 := heap_get_set_self (_j4status_mpd_section_action_callback actions s event_id) hs
  -- the notifications
  obtain ⟨s2, g1, g2, g3, g4, g5, g6⟩ := run_changed_lines p subsystems
    (step w (Event.action p event_id)) _ (by rw [hstep1]; exact hget1)
    (by rw [hact]; exact hcommand)
  rw [hact] at g3 g4 g5
  dsimp only at g3 g4 g5
  -- the acknowledgement
  have hne2 : s2.pending ≠ ACTION_NONE := by rw [g3]; exact hne
  obtain ⟨c, hc1, hc2⟩ := section_command_pending s2
    (if (run (step w (Event.action p event_id)) (subsystems.map
        (fun x => Event.line p ("changed: ".toList ++ x) MPD_ERROR_SUCCESS))).context.started
      then COMMAND_QUERY else COMMAND_IDLE) none hne2
  have hok : (_j4status_mpd_section_line_callback
      (run (step w (Event.action p event_id)) (subsystems.map
        (fun x => Event.line p ("changed: ".toList ++ x) MPD_ERROR_SUCCESS))).context
      p s2 "OK".toList MPD_ERROR_SUCCESS).data =
      { s2 with mpd := s2.mpd ++ [c], command := COMMAND_ACTION } := by
    rw [← hc2]
    simp only [_j4status_mpd_section_line_callback, g2]
    simp [ g_str_has_prefix]
  have hstep3 := step_line_success _ p s2 "OK".toList g1
  have hget3 := heap_get_set_self (_j4status_mpd_section_line_callback
      (run (step w (Event.action p event_id)) (subsystems.map
        (fun x => Event.line p ("changed: ".toList ++ x) MPD_ERROR_SUCCESS))).context
      p s2 "OK".toList MPD_ERROR_SUCCESS).data g1
  rw [hok] at hget3 hstep3
  refine ⟨{ s2 with mpd := s2.mpd ++ [c], command := COMMAND_ACTION }, c, ?_, ?_, ?_, ?_, ?_, ?_⟩
  · simp only [run, List.foldl_cons, List.foldl_append, List.foldl_nil]
    simp only [run] at hstep3 hget3
    rw [hstep3]
    exact hget3
  · rw [← g3, ← g5]; exact hc1
  · simp [g4]
  · rfl
  · exact g3
  · exact hne2

/-! ### Title lines in a query response -/

/-- Two characters with the same code are equal. -/
theorem char_eq_of_toNat_eq {a b : Char} (h : a.toNat = b.toNat) : a = b := by
  rw [← Char.ofNat_toNat a, ← Char.ofNat_toNat b, h]

/-- For a key without NUL, `g_ascii_strncasecmp` over the key's length returns 0
exactly when the line has that key in the specification's sense. -/
theorem strncasecmp_eq_zero_iff (key : CString) (hkey : ∀ c ∈ key, c.toNat ≠ 0)
    (line : CString) :
    g_ascii_strncasecmp line key key.length = 0 ↔ has_key key line = true := by
  induction key generalizing line with
  | nil => simp [g_ascii_strncasecmp, has_key]
  | cons k ks ih =>
    have hk : k.toNat ≠ 0 := hkey k (List.mem_cons_self _ _)
    have hks : ∀ c ∈ ks, c.toNat ≠ 0 := fun c hc => hkey c (List.mem_cons_of_mem _ hc)
    cases line with
    | nil =>
      simp only [List.length_cons, g_ascii_strncasecmp, has_key]
      simp
      omega
    | cons c cs =>
      simp only [List.length_cons, g_ascii_strncasecmp]
      by_cases hcc : g_ascii_tolower c = g_ascii_tolower k
      · have := ih hks cs
        simp only [has_key] at this ⊢
        simp [hcc, this]
      · have hne : (g_ascii_tolower c).toNat ≠ (g_ascii_tolower k).toNat :=
          fun h => hcc (char_eq_of_toNat_eq h)
        simp only [has_key]
        simp [hcc]
        omega

/-- A line that has a non-empty key starts with a character that agrees with the
key's first character up to ASCII case. -/
theorem has_key_head (k : Char) (ks : CString) {line : CString}
    (h : has_key (k :: ks) line = true) :
    ∃ c rest, line = c :: rest ∧ g_ascii_tolower c = g_ascii_tolower k := by
  cases line with
  | nil => simp [has_key] at h
  | cons c cs =>
    simp [has_key] at h
    exact ⟨c, cs, rfl, h.1⟩

/-- A line with a non-empty prefix starts with the prefix's first character. -/
theorem has_prefix_head (k : Char) (ks : CString) {line : CString}
    (h : g_str_has_prefix line (k :: ks) = true) : ∃ rest, line = k :: rest := by
  cases line with
  | nil => simp [ g_str_has_prefix] at h
  | cons c cs =>
    simp [ g_str_has_prefix] at h
    exact ⟨cs, by rw [h.1]⟩

/-- The no-NUL side condition for the two case-insensitive keys of the handler. -/
theorem title_key_no_nul : ∀ c ∈ "Title: ".toList, c.toNat ≠ 0 := by decide

theorem file_key_no_nul : ∀ c ∈ "file: ".toList, c.toNat ≠ 0 := by decide

/-- A line whose key is `Title: ` is none of the lines the handler tests for
before the title test. -/
theorem title_line_not_earlier {line : CString} (h : has_key "Title: ".toList line = true) :
    line ≠ "OK".toList ∧ g_str_has_prefix line "state: ".toList = false ∧
      g_str_has_prefix line "updating_db: ".toList = false ∧
      g_ascii_strncasecmp line "file: ".toList (strlen "file: ".toList) ≠ 0 := by
  obtain ⟨c, rest, rfl, hc⟩ := has_key_head 'T' "itle: ".toList h
  have ht : g_ascii_tolower 'T' = 't' := by decide
  rw [ht] at hc
  refine ⟨?_, ?_, ?_, ?_⟩
  · intro heq
    have : c = 'O' := by simpa using (List.cons.inj heq).1
    rw [this] at hc
    exact absurd hc (by decide)
  · cases hp : g_str_has_prefix (c :: rest) "state: ".toList with
    | false => rfl
    | true =>
      obtain ⟨r, hr⟩ := has_prefix_head 's' "tate: ".toList hp
      have : c = 's' := (List.cons.inj hr).1
      rw [this] at hc
      exact absurd hc (by decide)
  · cases hp : g_str_has_prefix (c :: rest) "updating_db: ".toList with
    | false => rfl
    | true =>
      obtain ⟨r, hr⟩ := has_prefix_head 'u' "pdating_db: ".toList hp
      have : c = 'u' := (List.cons.inj hr).1
      rw [this] at hc
      exact absurd hc (by decide)
  · intro hz
    have hz' : g_ascii_strncasecmp (c :: rest) "file: ".toList "file: ".toList.length = 0 := hz
    rw [strncasecmp_eq_zero_iff _ file_key_no_nul] at hz'
    obtain ⟨c', r, hr, hc'⟩ := has_key_head 'f' "ile: ".toList hz'
    have : c' = c := ((List.cons.inj hr).1).symm
    rw [this, hc] at hc'
    exact absurd hc' (by decide)

/-- A line other than `OK` handled while the active command is QUERY keeps QUERY
active, and changes the explicit title only in the title branch, when none is set. -/
theorem query_line_frame (context : J4statusPluginContext) (self : Nat)
    (s : J4statusMpdSection) (line : CString) (hc : s.command = COMMAND_QUERY)
    (hok : line ≠ "OK".toList) :
    (_j4status_mpd_section_line_callback context self s line MPD_ERROR_SUCCESS).data.command =
        COMMAND_QUERY ∧
    ((_j4status_mpd_section_line_callback context self s line MPD_ERROR_SUCCESS).data.current_song =
        s.current_song ∨
      (s.current_song = none ∧
        g_ascii_strncasecmp line "Title: ".toList (strlen "Title: ".toList) = 0 ∧
        (_j4status_mpd_section_line_callback context self s line MPD_ERROR_SUCCESS).data.current_song =
          some (line.drop (strlen "Title: ".toList)))) := by
  unfold _j4status_mpd_section_line_callback
  rw [if_neg (by simp)]
  simp only [hc]
  rw [if_neg hok]
  by_cases h1 : g_str_has_prefix line "state: ".toList = true
  · rw [if_pos h1]
    split_ifs <;> simp [hc]
  rw [if_neg h1]
  by_cases h2 : g_str_has_prefix line "updating_db: ".toList = true
  · rw [if_pos h2]
    simp
  rw [if_neg h2]
  by_cases h3 : g_ascii_strncasecmp line "file: ".toList (strlen "file: ".toList) = 0
  · rw [if_pos h3]
    split <;> simp
  rw [if_neg h3]
  by_cases h4 : g_ascii_strncasecmp line "Title: ".toList (strlen "Title: ".toList) = 0
  · rw [if_pos h4]
    by_cases h5 : s.current_song = none
    · rw [if_pos h5]
      exact ⟨rfl, Or.inr ⟨h5, h4, rfl⟩⟩
    · rw [if_neg h5]
      exact ⟨hc, Or.inl rfl⟩
  rw [if_neg h4]
  split_ifs <;> simp [hc]

/-- A line whose key is `Title: `, handled while the active command is QUERY and
no explicit title is set, stores the text after the key. -/
theorem query_title_line (context : J4statusPluginContext) (self : Nat)
    (s : J4statusMpdSection) (line : CString) (hc : s.command = COMMAND_QUERY)
    (hkey : has_key "Title: ".toList line = true) (hnone : s.current_song = none) :
    (_j4status_mpd_section_line_callback context self s line MPD_ERROR_SUCCESS).data.current_song =
      some (line.drop 7) := by
  obtain ⟨hok, h1, h2, h3⟩ := title_line_not_earlier hkey
  have h4 : g_ascii_strncasecmp line "Title: ".toList (strlen "Title: ".toList) = 0 :=
    (strncasecmp_eq_zero_iff _ title_key_no_nul line).mpr hkey
  unfold _j4status_mpd_section_line_callback
  rw [if_neg (by simp)]
  simp only [hc]
  rw [if_neg hok, if_neg (by rw [h1]; simp), if_neg (by rw [h2]; simp), if_neg h3, if_pos h4,
    if_pos hnone]
  rfl

/-- Lines other than `OK`, handled while QUERY is active and an explicit title is
set, keep that title. -/
theorem handle_lines_keeps_title (context : J4statusPluginContext) (self : Nat)
    (lines : List CString) (s : J4statusMpdSection) (t : CString)
    (hc : s.command = COMMAND_QUERY) (ht : s.current_song = some t)
    (hok : ∀ x ∈ lines, x ≠ "OK".toList) :
    (handle_lines context self s lines).current_song = some t ∧
      (handle_lines context self s lines).command = COMMAND_QUERY := by
  induction lines generalizing s with
  | nil => exact ⟨ht, hc⟩
  | cons x rest ih =>
    obtain ⟨h1, h2⟩ := query_line_frame context self s x hc (hok x (List.mem_cons_self _ _))
    have h3 : (_j4status_mpd_section_line_callback context self s x
        MPD_ERROR_SUCCESS).data.current_song = some t := by
      rcases h2 with h2 | ⟨h2, -, -⟩
      · rw [h2, ht]
      · rw [ht] at h2
        exact absurd h2 (by simp)
    exact ih _ h1 h3 (fun y hy => hok y (List.mem_cons_of_mem _ hy))

/-- Lines other than `OK` without the key `Title: `, handled while QUERY is
active, do not change the explicit title. -/
theorem handle_lines_without_title (context : J4statusPluginContext) (self : Nat)
    (lines : List CString) (s : J4statusMpdSection)
    (hc : s.command = COMMAND_QUERY)
    (hok : ∀ x ∈ lines, x ≠ "OK".toList)
    (hkey : ∀ x ∈ lines, has_key "Title: ".toList x = false) :
    (handle_lines context self s lines).current_song = s.current_song ∧
      (handle_lines context self s lines).command = COMMAND_QUERY := by
  induction lines generalizing s with
  | nil => exact ⟨rfl, hc⟩
  | cons x rest ih =>
    obtain ⟨h1, h2⟩ := query_line_frame context self s x hc (hok x (List.mem_cons_self _ _))
    have h3 : (_j4status_mpd_section_line_callback context self s x
        MPD_ERROR_SUCCESS).data.current_song = s.current_song := by
      rcases h2 with h2 | ⟨-, h2, -⟩
      · exact h2
      · have := (strncasecmp_eq_zero_iff _ title_key_no_nul x).mp h2
        rw [hkey x (List.mem_cons_self _ _)] at this
        exact absurd this (by simp)
    obtain ⟨g1, g2⟩ := ih _ h1 (fun y hy => hok y (List.mem_cons_of_mem _ hy))
      (fun y hy => hkey y (List.mem_cons_of_mem _ hy))
    exact ⟨g1.trans h3, g2⟩

/-- C8: after the query command has been dispatched (nothing pending), for every
sequence of response lines, none equal to `OK`, that contains a line whose key is
`Title: ` up to ASCII case, the explicit title after processing is the text that
follows the key in the first such line; later `Title:` lines do not change it. -/
theorem C8_first_title_wins (context : J4statusPluginContext) (self : Nat)
    (s : J4statusMpdSection) (before after : List CString) (line : CString)
    (hpending : s.pending = ACTION_NONE)
    (hok : ∀ x ∈ before ++ line :: after, x ≠ "OK".toList)
    (hkey : has_key "Title: ".toList line = true)
    (hfirst : ∀ x ∈ before, has_key "Title: ".toList x = false) :
    (handle_lines context self (_j4status_mpd_section_command s COMMAND_QUERY none)
      (before ++ line :: after)).current_song = some (line.drop 7) := by
  have hq : (_j4status_mpd_section_command s COMMAND_QUERY none).command = COMMAND_QUERY ∧
      (_j4status_mpd_section_command s COMMAND_QUERY none).current_song = none := by
    simp [_j4status_mpd_section_command, hpending]
  obtain ⟨b1, b2⟩ := handle_lines_without_title context self before _ hq.1
    (fun x hx => hok x (List.mem_append_left _ hx)) hfirst
  rw [hq.2] at b1
  have hline := query_title_line context self _ line b2 hkey b1
  have hcmd := (query_line_frame context self _ line b2
    (hok line (List.mem_append_right _ (List.mem_cons_self _ _)))).1
  have hrest := handle_lines_keeps_title context self after _ (line.drop 7) hcmd hline
    (fun x hx => hok x (List.mem_append_right _ (List.mem_cons_of_mem _ hx)))
  have hsplit : handle_lines context self (_j4status_mpd_section_command s COMMAND_QUERY none)
      (before ++ line :: after) =
      handle_lines context self
        (_j4status_mpd_section_line_callback context self
          (handle_lines context self (_j4status_mpd_section_command s COMMAND_QUERY none) before)
          line MPD_ERROR_SUCCESS).data after := by
    simp [handle_lines, List.foldl_append]
  rw [hsplit]
  exact hrest.1

/-- Witness for C8: `state: play`, `TITLE: First`, `file: a.mp3`, `Title: Second`
leaves the explicit title `First`. -/
theorem C8_first_title_wins_witness :
    (handle_lines sample_context 1
      (_j4status_mpd_section_command sample_section COMMAND_QUERY none)
      (["state: play".toList] ++ "TITLE: First".toList ::
        ["file: a.mp3".toList, "Title: Second".toList])).current_song =
      some ("TITLE: First".toList.drop 7) :=
  C8_first_title_wins sample_context 1 sample_section ["state: play".toList]
    ["file: a.mp3".toList, "Title: Second".toList] "TITLE: First".toList
    (by decide) (by decide) (by decide) (by decide)

/-! ### Render adapter -/

/-- C11 (code as written): with both titles absent the `TOKEN_SONG` case of
`_j4status_mpd_format_callback` returns nothing itself and falls through to the
`TOKEN_STATE` case, so the value of the `song` token is the playback state as a
byte and not absent; for a stopped section it is the byte 2. -/
theorem C11_song_token_falls_through_to_state (s : J4statusMpdSection) :
    _j4status_mpd_format_callback TOKEN_SONG
        { s with current_song := none, current_filename := none } =
      some (GVariant.byte s.state.toNat) ∧
    _j4status_mpd_format_callback TOKEN_SONG
        { sample_section with current_song := none, current_filename := none,
                              state := STATE_STOP } = some (GVariant.byte 2) ∧
    _j4status_mpd_format_callback TOKEN_SONG
        { sample_section with current_song := none, current_filename := none,
                              state := STATE_STOP } ≠ none := by
  refine ⟨?_, by decide, by decide⟩
  simp [_j4status_mpd_format_callback, TOKEN_SONG]

/-- C12: the `song` token is the explicit title whenever one is set, whatever the
fallback title, and the filename-derived title when only that one is set.  When
the freshly initialised sample plugin (format with the song and state tokens)
handles `state: play`, `file: song.mp3`, `Title: My Song`, `OK`, it publishes the
severity good and the values `My Song` for song and the ordinal of play for
state. -/
theorem C12_song_token_precedence (s : J4statusMpdSection) (title filename : CString)
    (fallback : Option CString) :
    _j4status_mpd_format_callback TOKEN_SONG
        { s with current_song := some title, current_filename := fallback } =
      some (GVariant.string title) ∧
    _j4status_mpd_format_callback TOKEN_SONG
        { s with current_song := none, current_filename := some filename } =
      some (GVariant.string filename) ∧
    (heap_get (run sample_world
        [Event.line 1 "state: play".toList MPD_ERROR_SUCCESS,
         Event.line 1 "file: song.mp3".toList MPD_ERROR_SUCCESS,
         Event.line 1 "Title: My Song".toList MPD_ERROR_SUCCESS,
         Event.line 1 "OK".toList MPD_ERROR_SUCCESS]).heap 1).map (fun x => x.«section») =
      some [J4statusSectionCall.set_state J4STATUS_STATE_GOOD,
            J4statusSectionCall.set_value
              [some (GVariant.string "My Song".toList),
               some (GVariant.byte STATE_PLAY.toNat)]] := by
  refine ⟨?_, ?_, by decide⟩
  · simp [_j4status_mpd_format_callback, TOKEN_SONG]
  · simp [_j4status_mpd_format_callback, TOKEN_SONG]

/-- C16: the severity published by `_j4status_mpd_section_update` depends on the
playback state alone: good when playing, average when paused, bad when stopped,
and so never the 'no state' severity; it is published together with the rendered
value, after whatever was published before. -/
theorem C16_severity_from_playback_state (s : J4statusMpdSection) :
    (_j4status_mpd_section_update s).«section» =
      s.«section» ++
        [J4statusSectionCall.set_state
            (match s.state with
              | STATE_PLAY => J4STATUS_STATE_GOOD
              | STATE_PAUSE => J4STATUS_STATE_AVERAGE
              | STATE_STOP => J4STATUS_STATE_BAD),
         J4statusSectionCall.set_value
            (j4status_format_string_replace s.format _j4status_mpd_format_callback s)] ∧
    (match s.state with
      | STATE_PLAY => J4STATUS_STATE_GOOD
      | STATE_PAUSE => J4STATUS_STATE_AVERAGE
      | STATE_STOP => J4STATUS_STATE_BAD) ≠ J4STATUS_STATE_NO_STATE := by
  constructor
  · cases hst : s.state <;> simp [_j4status_mpd_section_update, hst]
  · cases s.state <;> simp

/-- C17: for a stored volume between -1 and 100 the `volume` token is absent
exactly when the volume is -1, and is the stored integer otherwise. -/
theorem C17_volume_token (s : J4statusMpdSection) (h : volume_in_range s) :
    (_j4status_mpd_format_callback TOKEN_VOLUME s = none ↔ s.volume = -1) ∧
    _j4status_mpd_format_callback TOKEN_VOLUME s =
      if s.volume = -1 then none else some (GVariant.int16 s.volume) := by
  obtain ⟨h1, -⟩ := h
  have hv : _j4status_mpd_format_callback TOKEN_VOLUME s =
      if s.volume < 0 then none else some (GVariant.int16 s.volume) := by
    simp [_j4status_mpd_format_callback, TOKEN_VOLUME, TOKEN_SONG, TOKEN_STATE, TOKEN_DATABASE,
      TOKEN_OPTIONS]
  rw [hv]
  by_cases hneg : s.volume < 0
  · have : s.volume = -1 := by omega
    simp [hneg, this]
  · have : s.volume ≠ -1 := by omega
    simp [hneg, this]

/-- Witness for C17: volume 40 gives the integer 40. -/
theorem C17_volume_token_witness :
    (_j4status_mpd_format_callback TOKEN_VOLUME { sample_section with volume := 40 } = none ↔
      ({ sample_section with volume := 40 } : J4statusMpdSection).volume = -1) ∧
    _j4status_mpd_format_callback TOKEN_VOLUME { sample_section with volume := 40 } =
      if ({ sample_section with volume := 40 } : J4statusMpdSection).volume = -1 then none
      else some (GVariant.int16 ({ sample_section with volume := 40 } : J4statusMpdSection).volume) :=
  C17_volume_token { sample_section with volume := 40 } ⟨by decide, by decide⟩

/-! ### Teardown, ignored requests and dispatch priority -/

/-- The list operation `g_list_remove` drops the first occurrence, like `List.erase`. -/
theorem g_list_remove_eq_erase (l : List Nat) (p : Nat) : g_list_remove l p = l.erase p := by
  induction l with
  | nil => rfl
  | cons x rest ih =>
    by_cases hx : x = p
    · simp [g_list_remove, hx]
    · simp [g_list_remove, hx, List.erase_cons_tail, ih]

/-- Removing an address keeps the other addresses, in the same order. -/
theorem g_list_remove_filter (l : List Nat) (p : Nat) :
    (g_list_remove l p).filter (fun q => q != p) = l.filter (fun q => q != p) := by
  induction l with
  | nil => rfl
  | cons x rest ih =>
    by_cases hx : x = p
    · simp [g_list_remove, hx]
    · simp [g_list_remove, hx, List.filter_cons, ih]

/-- Freeing a section leaves the sections at other addresses as they are. -/
theorem heap_get_free_ne (heap : List (Nat × J4statusMpdSection)) (p q : Nat) (h : q ≠ p) :
    heap_get (_j4status_mpd_section_free heap p) q = heap_get heap q := by
  induction heap with
  | nil => rfl
  | cons e rest ih =>
    obtain ⟨a, t⟩ := e
    by_cases ha : a = p
    · subst ha
      have haq : ¬ a = q := fun hq => h hq.symm
      simp [_j4status_mpd_section_free, heap_get, haq]
    · by_cases haq : a = q
      · subst haq
        simp [_j4status_mpd_section_free, heap_get, ha]
      · simp [_j4status_mpd_section_free, heap_get, ha, haq, ih]

/-- C18: when the line handler is called for a live section with a transport
error, whatever the active command and the line, it returns 'remove source',
sends nothing and frees the section; one occurrence of the section's address is
removed from the context's section list, the other addresses stay in the same
order, and the sections at every other address are unchanged. -/
theorem C18_transport_error_teardown (w : World) (p : Nat) (s : J4statusMpdSection)
    (line : CString) (error : mpd_error) (hs : heap_get w.heap p = some s)
    (he : error ≠ MPD_ERROR_SUCCESS) :
    (_j4status_mpd_section_line_callback w.context p s line error).ret = G_SOURCE_REMOVE ∧
    (_j4status_mpd_section_line_callback w.context p s line error).freed = true ∧
    (_j4status_mpd_section_line_callback w.context p s line error).data.mpd = s.mpd ∧
    (step w (Event.line p line error)).context.sections = w.context.sections.erase p ∧
    (step w (Event.line p line error)).context.sections.count p =
      w.context.sections.count p - 1 ∧
    (step w (Event.line p line error)).context.sections.filter (fun q => q != p) =
      w.context.sections.filter (fun q => q != p) ∧
    ∀ q, q ≠ p → heap_get (step w (Event.line p line error)).heap q = heap_get w.heap q := by
  have hr := line_callback_error w.context p s line error he
  have hstep : step w (Event.line p line error) =
      { context := { w.context with sections := g_list_remove w.context.sections p },
        heap := _j4status_mpd_section_free w.heap p } := by
    simp only [step, hs, hr]
    simp
  rw [hstep, hr]
  refine ⟨rfl, rfl, rfl, g_list_remove_eq_erase _ _, ?_, g_list_remove_filter _ _, ?_⟩
  · dsimp only
    rw [g_list_remove_eq_erase, List.count_erase_self]
  · intro q hq
    exact heap_get_free_ne _ _ _ hq

/-- Witness for C18: two sections at addresses 1 and 2, a transport error on the
first one. -/
theorem C18_transport_error_teardown_witness :
    (_j4status_mpd_section_line_callback
      { config := sample_context.config, sections := [2, 1], started := true } 1 sample_section
      [] (MPD_ERROR_OTHER 5)).ret = G_SOURCE_REMOVE ∧
    (_j4status_mpd_section_line_callback
      { config := sample_context.config, sections := [2, 1], started := true } 1 sample_section
      [] (MPD_ERROR_OTHER 5)).freed = true ∧
    (_j4status_mpd_section_line_callback
      { config := sample_context.config, sections := [2, 1], started := true } 1 sample_section
      [] (MPD_ERROR_OTHER 5)).data.mpd = sample_section.mpd ∧
    (step { context := { config := sample_context.config, sections := [2, 1], started := true },
            heap := [(1, sample_section), (2, sample_fresh_section)] }
      (Event.line 1 [] (MPD_ERROR_OTHER 5))).context.sections = [2, 1].erase 1 ∧
    (step { context := { config := sample_context.config, sections := [2, 1], started := true },
            heap := [(1, sample_section), (2, sample_fresh_section)] }
      (Event.line 1 [] (MPD_ERROR_OTHER 5))).context.sections.count 1 = [2, 1].count 1 - 1 ∧
    (step { context := { config := sample_context.config, sections := [2, 1], started := true },
            heap := [(1, sample_section), (2, sample_fresh_section)] }
      (Event.line 1 [] (MPD_ERROR_OTHER 5))).context.sections.filter (fun q => q != 1) =
      [2, 1].filter (fun q => q != 1) ∧
    ∀ q, q ≠ 1 →
      heap_get (step { context := { config := sample_context.config, sections := [2, 1],
                                    started := true },
                       heap := [(1, sample_section), (2, sample_fresh_section)] }
        (Event.line 1 [] (MPD_ERROR_OTHER 5))).heap q =
      heap_get [(1, sample_section), (2, sample_fresh_section)] q :=
  C18_transport_error_teardown
    { context := { config := sample_context.config, sections := [2, 1], started := true },
      heap := [(1, sample_section), (2, sample_fresh_section)] }
    1 sample_section [] (MPD_ERROR_OTHER 5) (by decide) (by decide)

/-- C19: an action request that arrives while an action is pending changes
nothing, whatever the active command and the event identifier: the section,
including what it has sent, is returned as it was. -/
theorem C19_request_ignored_while_pending (actions : List (CString × Fin 6))
    (s : J4statusMpdSection) (event_id : CString) (h : s.pending ≠ ACTION_NONE) :
    _j4status_mpd_section_action_callback actions s event_id = s := by
  simp [_j4status_mpd_section_action_callback, h]

/-- Witness for C19: an idle section with `stop` pending ignores a click. -/
theorem C19_request_ignored_while_pending_witness :
    _j4status_mpd_section_action_callback [("mouse:1".toList, 0), ("mouse:3".toList, 4)]
        { sample_section with pending := ACTION_STOP } "mouse:1".toList =
      { sample_section with pending := ACTION_STOP } :=
  C19_request_ignored_while_pending [("mouse:1".toList, 0), ("mouse:3".toList, 4)]
    { sample_section with pending := ACTION_STOP } "mouse:1".toList (by decide)

/-- C20: with an action pending, a dispatch of any requested command sends
exactly one line, the pending action's command from the specification's table,
and makes ACTION the active command; nothing else changes, so no `password`,
`idle` or query-batch line is sent and the explicit title is not cleared. -/
theorem C20_pending_action_preempts_dispatch (s : J4statusMpdSection)
    (command : J4statusMpdCommand) (password : Option CString)
    (h : s.pending ≠ ACTION_NONE) :
    ∃ c, spec_action_command s.pending s.state = some c ∧
      _j4status_mpd_section_command s command password =
        { s with mpd := s.mpd ++ [c], command := COMMAND_ACTION } ∧
      (_j4status_mpd_section_command s command password).current_song = s.current_song ∧
      c.command ∉ ["password".toList, "idle".toList, "command_list_begin".toList,
        "status".toList, "currentsong".toList, "command_list_end".toList] := by
  obtain ⟨c, hc1, hc2⟩ := section_command_pending s command password h
  refine ⟨c, hc1, hc2, by rw [hc2], ?_⟩
  cases hp : s.pending <;> cases hst : s.state <;>
    simp_all [spec_action_command] <;> (subst hc1; decide)

/-- Witness for C20: with `previous` pending a requested query sends `previous`. -/
theorem C20_pending_action_preempts_dispatch_witness :
    ∃ c, spec_action_command ACTION_PREVIOUS sample_section.state = some c ∧
      _j4status_mpd_section_command { sample_section with pending := ACTION_PREVIOUS }
          COMMAND_QUERY none =
        { sample_section with pending := ACTION_PREVIOUS, mpd := sample_section.mpd ++ [c],
                              command := COMMAND_ACTION } ∧
      (_j4status_mpd_section_command { sample_section with pending := ACTION_PREVIOUS }
          COMMAND_QUERY none).current_song = sample_section.current_song ∧
      c.command ∉ ["password".toList, "idle".toList, "command_list_begin".toList,
        "status".toList, "currentsong".toList, "command_list_end".toList] :=
  C20_pending_action_preempts_dispatch { sample_section with pending := ACTION_PREVIOUS }
    COMMAND_QUERY none (by decide)

/-! ### Query responses field by field -/

/-- A line other than `OK` handled while the active command is QUERY carries out
exactly the assignments of `line_effect`. -/
theorem query_line_effect (context : J4statusPluginContext) (self : Nat)
    (s : J4statusMpdSection) (line : CString) (hc : s.command = COMMAND_QUERY)
    (hok : line ≠ "OK".toList) :
    (_j4status_mpd_section_line_callback context self s line MPD_ERROR_SUCCESS).data =
      apply_effect (line_effect line) s := by
  obtain ⟨sec, mpd, used, fmt, cmd, pend, song, fname, st, upd, rep, rnd, sgl, con, vol⟩ := s
  dsimp only at hc
  subst hc
  unfold _j4status_mpd_section_line_callback line_effect
  rw [if_neg (by simp)]
  dsimp only
  rw [if_neg hok]
  by_cases h1 : g_str_has_prefix line "state: ".toList = true
  · rw [if_pos h1, if_pos h1]
    split_ifs <;> cases song <;> simp [apply_effect, LineEffect.nothing]
  rw [if_neg h1, if_neg h1]
  by_cases h2 : g_str_has_prefix line "updating_db: ".toList = true
  · rw [if_pos h2, if_pos h2]
    cases song <;> simp [apply_effect, LineEffect.nothing]
  rw [if_neg h2, if_neg h2]
  by_cases h3 : g_ascii_strncasecmp line "file: ".toList (strlen "file: ".toList) = 0
  · rw [if_pos h3, if_pos h3]
    generalize g_utf8_strchr _ _ = ext
    cases ext <;> cases song <;> simp [apply_effect, LineEffect.nothing]
  rw [if_neg h3, if_neg h3]
  by_cases h4 : g_ascii_strncasecmp line "Title: ".toList (strlen "Title: ".toList) = 0
  · rw [if_pos h4, if_pos h4]
    cases song <;> simp [apply_effect, LineEffect.nothing]
  rw [if_neg h4, if_neg h4]
  split_ifs <;> cases song <;> simp [apply_effect, LineEffect.nothing]


/-- Carrying out assignments leaves the active command, the pending action, the
sent commands and the published calls alone. -/
theorem apply_effect_frame (e : LineEffect) (s : J4statusMpdSection) :
    (apply_effect e s).command = s.command ∧ (apply_effect e s).pending = s.pending ∧
      (apply_effect e s).mpd = s.mpd ∧ (apply_effect e s).«section» = s.«section» :=
  ⟨rfl, rfl, rfl, rfl⟩

/-- The line that assigns nothing changes nothing. -/
theorem apply_effect_nothing (s : J4statusMpdSection) :
    apply_effect LineEffect.nothing s = s := by
  obtain ⟨sec, mpd, used, fmt, cmd, pend, song, fname, st, upd, rep, rnd, sgl, con, vol⟩ := s
  cases song <;> simp [apply_effect, LineEffect.nothing]

/-- Carrying out two lines in turn is carrying out their combination. -/
theorem apply_effect_followed_by (e1 e2 : LineEffect) (s : J4statusMpdSection) :
    apply_effect e2 (apply_effect e1 s) = apply_effect (e1.followed_by e2) s := by
  obtain ⟨sec, mpd, used, fmt, cmd, pend, song, fname, st, upd, rep, rnd, sgl, con, vol⟩ := s
  obtain ⟨est, eupd, efn, eti, erep, ernd, esgl, econ, evol⟩ := e1
  obtain ⟨fst, fupd, ffn, fti, frep, frnd, fsgl, fcon, fvol⟩ := e2
  simp only [apply_effect, LineEffect.followed_by, J4statusMpdSection.mk.injEq, true_and]
  refine ⟨?_, ?_, ?_, ?_, ?_, ?_, ?_, ?_, ?_⟩
  · cases song <;> cases eti <;> simp
  · cases ffn <;> simp
  · cases fst <;> simp
  · cases eupd <;> cases fupd <;> simp
  · cases frep <;> simp
  · cases frnd <;> simp
  · cases fsgl <;> simp
  · cases fcon <;> simp
  · cases fvol <;> simp

/-- Carrying out the same assignments a second time changes nothing more. -/
theorem apply_effect_idempotent (e : LineEffect) (s : J4statusMpdSection) :
    apply_effect e (apply_effect e s) = apply_effect e s := by
  obtain ⟨sec, mpd, used, fmt, cmd, pend, song, fname, st, upd, rep, rnd, sgl, con, vol⟩ := s
  obtain ⟨est, eupd, efn, eti, erep, ernd, esgl, econ, evol⟩ := e
  simp only [apply_effect, J4statusMpdSection.mk.injEq, true_and]
  refine ⟨?_, ?_, ?_, ?_, ?_, ?_, ?_, ?_, ?_⟩
  · cases song <;> cases eti <;> simp
  · cases efn <;> simp
  · cases est <;> simp
  · cases eupd <;> simp
  · cases erep <;> simp
  · cases ernd <;> simp
  · cases esgl <;> simp
  · cases econ <;> simp
  · cases evol <;> simp

/-- Lines other than `OK` handled while QUERY is active, after some assignments
were carried out, amount to carrying out the combined assignments. -/
theorem handle_lines_apply_effect (context : J4statusPluginContext) (self : Nat)
    (lines : List CString) (e : LineEffect) (s : J4statusMpdSection)
    (hc : s.command = COMMAND_QUERY) (hok : ∀ x ∈ lines, x ≠ "OK".toList) :
    handle_lines context self (apply_effect e s) lines =
      apply_effect (lines.foldl (fun e line => e.followed_by (line_effect line)) e) s := by
  induction lines generalizing e with
  | nil => rfl
  | cons x rest ih =>
    have hx := query_line_effect context self (apply_effect e s) x hc
      (hok x (List.mem_cons_self _ _))
    have hrest := ih (e.followed_by (line_effect x))
      (fun y hy => hok y (List.mem_cons_of_mem _ hy))
    rw [← apply_effect_followed_by, ← hx] at hrest
    simpa [handle_lines] using hrest

/-- Lines other than `OK` handled while QUERY is active carry out the assignments
of `lines_effect`. -/
theorem handle_lines_eq (context : J4statusPluginContext) (self : Nat)
    (lines : List CString) (s : J4statusMpdSection)
    (hc : s.command = COMMAND_QUERY) (hok : ∀ x ∈ lines, x ≠ "OK".toList) :
    handle_lines context self s lines = apply_effect (lines_effect lines) s := by
  have h := handle_lines_apply_effect context self lines LineEffect.nothing s hc hok
  rw [apply_effect_nothing] at h
  exact h

/-- C13: for every section with QUERY as active command and every list of
response lines, none equal to `OK`, processing the list and then processing it
again from the result gives the same section as processing it once. -/
theorem C13_query_response_idempotent (context : J4statusPluginContext) (self : Nat)
    (s : J4statusMpdSection) (lines : List CString)
    (hc : s.command = COMMAND_QUERY) (hok : ∀ x ∈ lines, x ≠ "OK".toList) :
    handle_lines context self (handle_lines context self s lines) lines =
      handle_lines context self s lines := by
  rw [handle_lines_eq context self lines s hc hok]
  rw [handle_lines_eq context self lines (apply_effect (lines_effect lines) s) hc hok]
  exact apply_effect_idempotent _ _

/-- Witness for C13 on a response with two titles, a file and option lines. -/
theorem C13_query_response_idempotent_witness :
    handle_lines sample_context 1
        (handle_lines sample_context 1 sample_fresh_section
          ["state: pause".toList, "repeat: 1".toList, "file: a/b.c.ogg".toList,
           "Title: One".toList, "Title: Two".toList, "volume: 70".toList])
        ["state: pause".toList, "repeat: 1".toList, "file: a/b.c.ogg".toList,
         "Title: One".toList, "Title: Two".toList, "volume: 70".toList] =
      handle_lines sample_context 1 sample_fresh_section
        ["state: pause".toList, "repeat: 1".toList, "file: a/b.c.ogg".toList,
         "Title: One".toList, "Title: Two".toList, "volume: 70".toList] :=
  C13_query_response_idempotent sample_context 1 sample_fresh_section
    ["state: pause".toList, "repeat: 1".toList, "file: a/b.c.ogg".toList,
     "Title: One".toList, "Title: Two".toList, "volume: 70".toList] (by decide) (by decide)


/-- The last value seen after one more leading line. -/
theorem spec_last_value_cons {α : Type} (f : CString → Option α) (x : CString)
    (rest : List CString) :
    spec_last_value f (x :: rest) = (spec_last_value f rest).orElse (fun _ => f x) := by
  unfold spec_last_value
  cases hx : f x with
  | none => simp [List.filterMap_cons, hx]
  | some v =>
    rw [List.filterMap_cons_some hx, List.getLast?_cons]
    cases (List.filterMap f rest).getLast? <;> simp

/-- For a field where the later line wins, the combined assignment of a list of
lines is the last value seen, or else the one assigned before the list. -/
theorem foldl_effect_last {α : Type} (proj : LineEffect → Option α) (f : CString → Option α)
    (hproj : ∀ e1 e2 : LineEffect,
      proj (e1.followed_by e2) = (proj e2).orElse (fun _ => proj e1))
    (hline : ∀ line, proj (line_effect line) = f line)
    (lines : List CString) (e : LineEffect) :
    proj (lines.foldl (fun e line => e.followed_by (line_effect line)) e) =
      (spec_last_value f lines).orElse (fun _ => proj e) := by
  induction lines generalizing e with
  | nil => simp [spec_last_value]
  | cons x rest ih =>
    rw [List.foldl_cons, ih, hproj, hline, spec_last_value_cons]
    cases spec_last_value f rest <;> simp

/-- The state a line assigns is the one the specification reads from it. -/
theorem line_effect_state (line : CString) :
    (line_effect line).state = spec_state_of_line line := by
  by_cases hp : g_str_has_prefix line "state: ".toList = true
  · obtain ⟨rest, rfl⟩ : ∃ rest, line = "state: ".toList ++ rest := by
      obtain ⟨t, ht⟩ := List.isPrefixOf_iff_prefix.mp hp
      exact ⟨t, ht.symm⟩
    simp only [line_effect, hp, if_true, spec_state_of_line]
    simp [strlen]
    split_ifs <;> simp [LineEffect.nothing]
  · have h1 : line ≠ "state: play".toList := fun h => hp (by rw [h]; decide)
    have h2 : line ≠ "state: pause".toList := fun h => hp (by rw [h]; decide)
    have h3 : line ≠ "state: stop".toList := fun h => hp (by rw [h]; decide)
    unfold line_effect spec_state_of_line
    rw [if_neg hp, if_neg h1, if_neg h2, if_neg h3]
    repeat' first
      | rfl
      | apply ite_prop (fun e : LineEffect => e.state = none)
      | (dsimp only; split <;> rfl)


/-- The `repeat` flag a line assigns is the one the specification reads from it. -/
theorem line_effect_repeat (line : CString) :
    (line_effect line).«repeat» = spec_flag_of_line "repeat: ".toList line := by
  by_cases hp : g_str_has_prefix line "repeat: ".toList = true
  · obtain ⟨rest, rfl⟩ : ∃ rest, line = "repeat: ".toList ++ rest := by
      obtain ⟨t, ht⟩ := List.isPrefixOf_iff_prefix.mp hp
      exact ⟨t, ht.symm⟩
    simp [line_effect, spec_flag_of_line, g_str_has_prefix, g_ascii_strncasecmp, strlen,
      g_ascii_tolower, LineEffect.nothing]
  · have hs : spec_flag_of_line "repeat: ".toList line = none := by
      unfold spec_flag_of_line
      exact if_neg hp
    rw [hs]
    unfold line_effect
    rw [if_neg hp]
    repeat' first
      | rfl
      | apply ite_prop (fun e : LineEffect => e.«repeat» = none)
      | (dsimp only; split <;> rfl)

/-- The `random` flag a line assigns is the one the specification reads from it. -/
theorem line_effect_random (line : CString) :
    (line_effect line).random = spec_flag_of_line "random: ".toList line := by
  by_cases hp : g_str_has_prefix line "random: ".toList = true
  · obtain ⟨rest, rfl⟩ : ∃ rest, line = "random: ".toList ++ rest := by
      obtain ⟨t, ht⟩ := List.isPrefixOf_iff_prefix.mp hp
      exact ⟨t, ht.symm⟩
    simp [line_effect, spec_flag_of_line, g_str_has_prefix, g_ascii_strncasecmp, strlen,
      g_ascii_tolower, LineEffect.nothing]
  · have hs : spec_flag_of_line "random: ".toList line = none := by
      unfold spec_flag_of_line
      exact if_neg hp
    rw [hs]
    unfold line_effect
    rw [if_neg hp]
    repeat' first
      | rfl
      | apply ite_prop (fun e : LineEffect => e.random = none)
      | (dsimp only; split <;> rfl)

/-- The `single` flag a line assigns is the one the specification reads from it. -/
theorem line_effect_single (line : CString) :
    (line_effect line).single = spec_flag_of_line "single: ".toList line := by
  by_cases hp : g_str_has_prefix line "single: ".toList = true
  · obtain ⟨rest, rfl⟩ : ∃ rest, line = "single: ".toList ++ rest := by
      obtain ⟨t, ht⟩ := List.isPrefixOf_iff_prefix.mp hp
      exact ⟨t, ht.symm⟩
    simp [line_effect, spec_flag_of_line, g_str_has_prefix, g_ascii_strncasecmp, strlen,
      g_ascii_tolower, LineEffect.nothing]
  · have hs : spec_flag_of_line "single: ".toList line = none := by
      unfold spec_flag_of_line
      exact if_neg hp
    rw [hs]
    unfold line_effect
    rw [if_neg hp]
    repeat' first
      | rfl
      | apply ite_prop (fun e : LineEffect => e.single = none)
      | (dsimp only; split <;> rfl)

/-- The `consume` flag a line assigns is the one the specification reads from it. -/
theorem line_effect_consume (line : CString) :
    (line_effect line).consume = spec_flag_of_line "consume: ".toList line := by
  by_cases hp : g_str_has_prefix line "consume: ".toList = true
  · obtain ⟨rest, rfl⟩ : ∃ rest, line = "consume: ".toList ++ rest := by
      obtain ⟨t, ht⟩ := List.isPrefixOf_iff_prefix.mp hp
      exact ⟨t, ht.symm⟩
    simp [line_effect, spec_flag_of_line, g_str_has_prefix, g_ascii_strncasecmp, strlen,
      g_ascii_tolower, LineEffect.nothing]
  · have hs : spec_flag_of_line "consume: ".toList line = none := by
      unfold spec_flag_of_line
      exact if_neg hp
    rw [hs]
    unfold line_effect
    rw [if_neg hp]
    repeat' first
      | rfl
      | apply ite_prop (fun e : LineEffect => e.consume = none)
      | (dsimp only; split <;> rfl)


/-- For a field where the later line wins, the assignment of a list of lines is
the last value seen. -/
theorem lines_effect_last {α : Type} (proj : LineEffect → Option α) (f : CString → Option α)
    (hproj : ∀ e1 e2 : LineEffect,
      proj (e1.followed_by e2) = (proj e2).orElse (fun _ => proj e1))
    (hline : ∀ line, proj (line_effect line) = f line)
    (hnothing : proj LineEffect.nothing = none) (lines : List CString) :
    proj (lines_effect lines) = spec_last_value f lines := by
  unfold lines_effect
  rw [foldl_effect_last proj f hproj hline, hnothing]
  cases spec_last_value f lines <;> rfl

/-- C14: for every list of response lines, none equal to `OK`, processed while
QUERY is the active command, the playback state is the one named by the last
`state: play|pause|stop` line and each of repeat, random, single and consume is
true exactly when the character after the key in the last line with that key is
`1`; a field without such a line keeps its starting value.  The result depends
only on the starting section and the lines, not on the context. -/
theorem C14_last_value_per_field (context : J4statusPluginContext) (self : Nat)
    (s : J4statusMpdSection) (lines : List CString)
    (hc : s.command = COMMAND_QUERY) (hok : ∀ x ∈ lines, x ≠ "OK".toList) :
    (handle_lines context self s lines).state =
      (spec_last_value spec_state_of_line lines).getD s.state ∧
    (handle_lines context self s lines).«repeat» =
      (spec_last_value (spec_flag_of_line "repeat: ".toList) lines).getD s.«repeat» ∧
    (handle_lines context self s lines).random =
      (spec_last_value (spec_flag_of_line "random: ".toList) lines).getD s.random ∧
    (handle_lines context self s lines).single =
      (spec_last_value (spec_flag_of_line "single: ".toList) lines).getD s.single ∧
    (handle_lines context self s lines).consume =
      (spec_last_value (spec_flag_of_line "consume: ".toList) lines).getD s.consume ∧
    ∀ (context' : J4statusPluginContext) (self' : Nat),
      handle_lines context' self' s lines = handle_lines context self s lines := by
  rw [handle_lines_eq context self lines s hc hok]
  refine ⟨?_, ?_, ?_, ?_, ?_, ?_⟩
  · show (lines_effect lines).state.getD s.state = _
    rw [lines_effect_last (fun e => e.state) spec_state_of_line
      (fun _ _ => rfl) line_effect_state rfl]
  · show (lines_effect lines).«repeat».getD s.«repeat» = _
    rw [lines_effect_last (fun e => e.«repeat») (spec_flag_of_line "repeat: ".toList)
      (fun _ _ => rfl) line_effect_repeat rfl]
  · show (lines_effect lines).random.getD s.random = _
    rw [lines_effect_last (fun e => e.random) (spec_flag_of_line "random: ".toList)
      (fun _ _ => rfl) line_effect_random rfl]
  · show (lines_effect lines).single.getD s.single = _
    rw [lines_effect_last (fun e => e.single) (spec_flag_of_line "single: ".toList)
      (fun _ _ => rfl) line_effect_single rfl]
  · show (lines_effect lines).consume.getD s.consume = _
    rw [lines_effect_last (fun e => e.consume) (spec_flag_of_line "consume: ".toList)
      (fun _ _ => rfl) line_effect_consume rfl]
  · intro context' self'
    exact handle_lines_eq context' self' lines s hc hok

/-- Witness for C14: after `state: pause`, `repeat: 1`, `state: bogus`,
`repeat: 0`, `random: 1` the section is paused, repeat is off and random is on. -/
theorem C14_last_value_per_field_witness :
    (handle_lines sample_context 1 sample_fresh_section
        ["state: pause".toList, "repeat: 1".toList, "state: bogus".toList,
         "repeat: 0".toList, "random: 1".toList]).state = STATE_PAUSE ∧
    (handle_lines sample_context 1 sample_fresh_section
        ["state: pause".toList, "repeat: 1".toList, "state: bogus".toList,
         "repeat: 0".toList, "random: 1".toList]).«repeat» = false ∧
    (handle_lines sample_context 1 sample_fresh_section
        ["state: pause".toList, "repeat: 1".toList, "state: bogus".toList,
         "repeat: 0".toList, "random: 1".toList]).random = true :=
  have h := C14_last_value_per_field sample_context 1 sample_fresh_section
    ["state: pause".toList, "repeat: 1".toList, "state: bogus".toList,
     "repeat: 0".toList, "random: 1".toList] (by decide) (by decide)
  ⟨h.1.trans (by decide), h.2.1.trans (by decide), h.2.2.1.trans (by decide)⟩

/-- Dispatching a command publishes nothing. -/
theorem section_command_published (s : J4statusMpdSection) (command : J4statusMpdCommand)
    (password : Option CString) :
    (_j4status_mpd_section_command s command password).«section» = s.«section» := by
  by_cases hp : s.pending = ACTION_NONE <;> cases command <;>
    simp [_j4status_mpd_section_command, hp]

/-- C15: the line handler publishes (severity, then rendered value) exactly when
it is called without transport error, with QUERY as active command, on the line
`OK`; in every other case, whatever the active command and the line, what has
been published stays as it was. -/
theorem C15_publish_only_on_query_ok (context : J4statusPluginContext) (self : Nat)
    (s : J4statusMpdSection) (line : CString) (error : mpd_error) :
    (_j4status_mpd_section_line_callback context self s line error).data.«section» =
      (if error = MPD_ERROR_SUCCESS ∧ s.command = COMMAND_QUERY ∧ line = "OK".toList then
        (_j4status_mpd_section_update s).«section»
      else s.«section») ∧
    ((_j4status_mpd_section_line_callback context self s line error).data.«section» ≠
        s.«section» ↔
      (error = MPD_ERROR_SUCCESS ∧ s.command = COMMAND_QUERY ∧ line = "OK".toList)) := by
  have hupd : (_j4status_mpd_section_update s).«section» ≠ s.«section» := by
    intro h
    have hlen := congrArg List.length h
    simp [_j4status_mpd_section_update] at hlen
  have key : (_j4status_mpd_section_line_callback context self s line error).data.«section» =
      (if error = MPD_ERROR_SUCCESS ∧ s.command = COMMAND_QUERY ∧ line = "OK".toList then
        (_j4status_mpd_section_update s).«section»
      else s.«section») := by
    by_cases he : error = MPD_ERROR_SUCCESS
    · subst he
      by_cases hc : s.command = COMMAND_QUERY
      · by_cases hok : line = "OK".toList
        · rw [if_pos ⟨rfl, hc, hok⟩]
          unfold _j4status_mpd_section_line_callback
          rw [if_neg (by simp)]
          simp only [hc]
          rw [if_pos hok]
          exact section_command_published _ _ _
        · rw [if_neg (fun h => hok h.2.2), query_line_effect context self s line hc hok]
          rfl
      · rw [if_neg (fun h => hc h.2.1)]
        unfold _j4status_mpd_section_line_callback
        rw [if_neg (by simp)]
        cases hcmd : s.command with
        | COMMAND_QUERY => exact absurd hcmd hc
        | COMMAND_PASSWORD =>
          dsimp only
          apply ite_prop (fun x : J4statusMpdSection => x.«section» = s.«section»)
          · exact section_command_published _ _ _
          · rfl
        | COMMAND_IDLE =>
          dsimp only
          repeat' first
            | rfl
            | exact section_command_published _ _ _
            | apply ite_prop (fun x : J4statusMpdSection => x.«section» = s.«section»)
        | COMMAND_ACTION =>
          dsimp only
          apply ite_prop (fun x : J4statusMpdSection => x.«section» = s.«section»)
          · exact section_command_published _ _ _
          · rfl
    · rw [if_neg (fun h => he h.1), line_callback_error _ _ _ _ _ he]
  refine ⟨key, ?_⟩
  rw [key]
  by_cases hcond : error = MPD_ERROR_SUCCESS ∧ s.command = COMMAND_QUERY ∧ line = "OK".toList
  · simp only [if_pos hcond, hcond, and_self, iff_true]
    exact hupd
  · simp only [if_neg hcond, hcond, iff_false]
    simp

/-! ### The line handler case by case -/

/-- The line handler while `password` is in flight. -/
theorem line_callback_password (context : J4statusPluginContext) (self : Nat)
    (s : J4statusMpdSection) (line : CString) (hc : s.command = COMMAND_PASSWORD) :
    (_j4status_mpd_section_line_callback context self s line MPD_ERROR_SUCCESS).data =
      if line = "OK".toList then _j4status_mpd_section_command s COMMAND_QUERY none else s := by
  unfold _j4status_mpd_section_line_callback
  rw [if_neg (by simp)]
  simp only [hc]

/-- The line handler while `idle` is in flight. -/
theorem line_callback_idle (context : J4statusPluginContext) (self : Nat)
    (s : J4statusMpdSection) (line : CString) (hc : s.command = COMMAND_IDLE) :
    (_j4status_mpd_section_line_callback context self s line MPD_ERROR_SUCCESS).data =
      if g_str_has_prefix line "changed: ".toList then
        if line.drop (strlen "changed: ".toList) = "player".toList then
          { (if line.drop (strlen "changed: ".toList) = "database".toList
              then { s with updating := false } else s) with current_song := none }
        else if line.drop (strlen "changed: ".toList) = "database".toList
          then { s with updating := false } else s
      else if line = "OK".toList then
        _j4status_mpd_section_command s
          (if context.started then COMMAND_QUERY else COMMAND_IDLE) none
      else s := by
  unfold _j4status_mpd_section_line_callback
  rw [if_neg (by simp)]
  simp only [hc]

/-- The line handler while an action command is in flight. -/
theorem line_callback_action (context : J4statusPluginContext) (self : Nat)
    (s : J4statusMpdSection) (line : CString) (hc : s.command = COMMAND_ACTION) :
    (_j4status_mpd_section_line_callback context self s line MPD_ERROR_SUCCESS).data =
      if line = "OK".toList then
        _j4status_mpd_section_command { s with pending := ACTION_NONE } COMMAND_QUERY none
      else s := by
  unfold _j4status_mpd_section_line_callback
  rw [if_neg (by simp)]
  simp only [hc]

/-- The line handler on `OK` while the query batch is in flight. -/
theorem line_callback_query_ok (context : J4statusPluginContext) (self : Nat)
    (s : J4statusMpdSection) (hc : s.command = COMMAND_QUERY) :
    (_j4status_mpd_section_line_callback context self s "OK".toList MPD_ERROR_SUCCESS).data =
      _j4status_mpd_section_command (_j4status_mpd_section_update s) COMMAND_IDLE none := by
  unfold _j4status_mpd_section_line_callback
  rw [if_neg (by simp)]
  simp only [hc]
  rw [if_pos trivial]

/-- Dispatching QUERY with nothing pending: the title is cleared and the query
batch is sent. -/
theorem section_command_query (s : J4statusMpdSection) (password : Option CString)
    (h : s.pending = ACTION_NONE) :
    _j4status_mpd_section_command s COMMAND_QUERY password =
      { s with current_song := none, mpd := s.mpd ++ query_batch, command := COMMAND_QUERY } := by
  simp [_j4status_mpd_section_command, h, mpd_async_send_command, va_args, query_batch]

/-- Dispatching IDLE with nothing pending: one `idle` line is sent. -/
theorem section_command_idle (s : J4statusMpdSection) (password : Option CString)
    (h : s.pending = ACTION_NONE) :
    ∃ args, _j4status_mpd_section_command s COMMAND_IDLE password =
      { s with mpd := s.mpd ++ [{ command := "idle".toList, args := args }],
               command := COMMAND_IDLE } := by
  simp only [_j4status_mpd_section_command, h, mpd_async_send_command, ne_eq,
    not_true_eq_false, if_false]
  exact ⟨_, rfl⟩

/-- C23: dispatching QUERY with no pending action sends exactly the four lines
`command_list_begin`, `status`, `currentsong`, `command_list_end` in that order,
clears the explicit title and makes QUERY the active command; playback state,
fallback title, database flag, option flags, volume and every other field are
unchanged. -/
theorem C23_query_dispatch (s : J4statusMpdSection) (password : Option CString)
    (h : s.pending = ACTION_NONE) :
    _j4status_mpd_section_command s COMMAND_QUERY password =
      { s with
        current_song := none,
        mpd := s.mpd ++ [{ command := "command_list_begin".toList, args := [] },
                         { command := "status".toList, args := [] },
                         { command := "currentsong".toList, args := [] },
                         { command := "command_list_end".toList, args := [] }],
        command := COMMAND_QUERY } :=
  section_command_query s password h

/-- Witness for C23 on the idle sample section. -/
theorem C23_query_dispatch_witness :
    _j4status_mpd_section_command sample_section COMMAND_QUERY none =
      { sample_section with
        current_song := none,
        mpd := sample_section.mpd ++ [{ command := "command_list_begin".toList, args := [] },
                                      { command := "status".toList, args := [] },
                                      { command := "currentsong".toList, args := [] },
                                      { command := "command_list_end".toList, args := [] }],
        command := COMMAND_QUERY } :=
  C23_query_dispatch sample_section none rfl

/-- C24: handling `OK` while IDLE is the active command and nothing is pending
sends the query batch and makes QUERY active when the plugin is started, and
otherwise sends one more `idle` line and stays in IDLE; either way nothing is
published and the handler returns 'continue'. -/
theorem C24_idle_acknowledged (context : J4statusPluginContext) (self : Nat)
    (s : J4statusMpdSection) (hc : s.command = COMMAND_IDLE) (hp : s.pending = ACTION_NONE) :
    (_j4status_mpd_section_line_callback context self s "OK".toList MPD_ERROR_SUCCESS).data =
      (if context.started then
        { s with current_song := none, mpd := s.mpd ++ query_batch, command := COMMAND_QUERY }
      else _j4status_mpd_section_command s COMMAND_IDLE none) ∧
    (∃ args, _j4status_mpd_section_command s COMMAND_IDLE none =
      { s with mpd := s.mpd ++ [{ command := "idle".toList, args := args }] }) ∧
    (_j4status_mpd_section_line_callback context self s "OK".toList
        MPD_ERROR_SUCCESS).data.«section» = s.«section» ∧
    (_j4status_mpd_section_line_callback context self s "OK".toList MPD_ERROR_SUCCESS).ret =
      G_SOURCE_CONTINUE := by
  have hd := line_callback_idle context self s "OK".toList hc
  rw [if_neg (by decide), if_pos rfl] at hd
  refine ⟨?_, ?_, ?_, (line_callback_success context self s "OK".toList).1⟩
  · rw [hd]
    cases hst : context.started
    · simp
    · simp only [if_true]
      exact section_command_query s none hp
  · obtain ⟨args, ha⟩ := section_command_idle s none hp
    refine ⟨args, ?_⟩
    rw [ha, ← hc]
  · rw [hd]
    exact section_command_published _ _ _

/-- Witness for C24: the idle sample section in a started plugin. -/
theorem C24_idle_acknowledged_witness :
    (_j4status_mpd_section_line_callback sample_context 1 sample_section "OK".toList
        MPD_ERROR_SUCCESS).data =
      (if sample_context.started then
        { sample_section with current_song := none, mpd := sample_section.mpd ++ query_batch,
                              command := COMMAND_QUERY }
      else _j4status_mpd_section_command sample_section COMMAND_IDLE none) :=
  (C24_idle_acknowledged sample_context 1 sample_section rfl rfl).1


/-- Dispatching a command leaves the pending action and the fallback title alone. -/
theorem section_command_frame (s : J4statusMpdSection) (command : J4statusMpdCommand)
    (password : Option CString) :
    (_j4status_mpd_section_command s command password).pending = s.pending ∧
      (_j4status_mpd_section_command s command password).current_filename =
        s.current_filename := by
  by_cases hp : s.pending = ACTION_NONE <;> cases command <;>
    simp [_j4status_mpd_section_command, hp]

/-- C26: for every section, whatever its active command, and every line other
than exactly `OK`, the line handler sends no command and leaves the active
command as it is, with or without a transport error; in particular a `changed: `
line handled while idle does not end the idle command. -/
theorem C26_only_ok_resolves (context : J4statusPluginContext) (self : Nat)
    (s : J4statusMpdSection) (line : CString) (error : mpd_error)
    (hok : line ≠ "OK".toList) :
    (_j4status_mpd_section_line_callback context self s line error).data.mpd = s.mpd ∧
    (_j4status_mpd_section_line_callback context self s line error).data.command =
      s.command := by
  by_cases he : error = MPD_ERROR_SUCCESS
  · subst he
    cases hc : s.command with
    | COMMAND_PASSWORD =>
      rw [line_callback_password context self s line hc, if_neg hok]
      exact ⟨rfl, hc⟩
    | COMMAND_IDLE =>
      rw [line_callback_idle context self s line hc, if_neg hok]
      split_ifs <;> exact ⟨rfl, hc⟩
    | COMMAND_QUERY =>
      rw [query_line_effect context self s line hc hok]
      exact ⟨rfl, hc⟩
    | COMMAND_ACTION =>
      rw [line_callback_action context self s line hc, if_neg hok]
      exact ⟨rfl, hc⟩
  · rw [line_callback_error _ _ _ _ _ he]
    exact ⟨rfl, rfl⟩

/-- Witness for C26: `changed: mixer` handled by the idle sample section. -/
theorem C26_only_ok_resolves_witness :
    (_j4status_mpd_section_line_callback sample_context 1 sample_section
        "changed: mixer".toList MPD_ERROR_SUCCESS).data.mpd = sample_section.mpd ∧
    (_j4status_mpd_section_line_callback sample_context 1 sample_section
        "changed: mixer".toList MPD_ERROR_SUCCESS).data.command = sample_section.command :=
  C26_only_ok_resolves sample_context 1 sample_section "changed: mixer".toList
    MPD_ERROR_SUCCESS (by decide)

/-- C21: for a section with an action pending, the line handler clears the
pending action exactly when it handles `OK` without transport error while ACTION
is the active command, and then it also sends the query batch and makes QUERY
the active command; every other call of the line handler, every action request
and every start event leaves the pending action as it is. -/
theorem C21_pending_cleared_only_by_action_ok (s : J4statusMpdSection)
    (hp : s.pending ≠ ACTION_NONE) :
    (∀ (context : J4statusPluginContext) (self : Nat) (line : CString) (error : mpd_error),
      (_j4status_mpd_section_line_callback context self s line error).data.pending =
        if error = MPD_ERROR_SUCCESS ∧ s.command = COMMAND_ACTION ∧ line = "OK".toList
        then ACTION_NONE else s.pending) ∧
    (∀ (context : J4statusPluginContext) (self : Nat),
      s.command = COMMAND_ACTION →
      (_j4status_mpd_section_line_callback context self s "OK".toList MPD_ERROR_SUCCESS).data =
        { s with pending := ACTION_NONE, current_song := none,
                 mpd := s.mpd ++ query_batch, command := COMMAND_QUERY }) ∧
    (∀ (actions : List (CString × Fin 6)) (event_id : CString),
      (_j4status_mpd_section_action_callback actions s event_id).pending = s.pending) ∧
    (_j4status_mpd_section_start s).pending = s.pending := by
  refine ⟨?_, ?_, ?_, ?_⟩
  · intro context self line error
    by_cases he : error = MPD_ERROR_SUCCESS
    · subst he
      cases hc : s.command with
      | COMMAND_PASSWORD =>
        rw [if_neg (by simp), line_callback_password context self s line hc]
        split_ifs
        · exact (section_command_frame _ _ _).1
        · rfl
      | COMMAND_IDLE =>
        rw [if_neg (by simp), line_callback_idle context self s line hc]
        split_ifs <;> first | rfl | exact (section_command_frame _ _ _).1
      | COMMAND_QUERY =>
        rw [if_neg (by simp)]
        by_cases hok : line = "OK".toList
        · subst hok
          rw [line_callback_query_ok context self s hc]
          exact (section_command_frame _ _ _).1
        · rw [query_line_effect context self s line hc hok]
          rfl
      | COMMAND_ACTION =>
        rw [line_callback_action context self s line hc]
        by_cases hok : line = "OK".toList
        · rw [if_pos hok, if_pos ⟨rfl, rfl, hok⟩]
          exact (section_command_frame _ _ _).1
        · rw [if_neg hok, if_neg (fun h => hok h.2.2)]
    · rw [line_callback_error _ _ _ _ _ he, if_neg (fun h => he h.1)]
  · intro context self hc
    rw [line_callback_action context self s "OK".toList hc, if_pos rfl]
    exact section_command_query _ none rfl
  · intro actions event_id
    simp [_j4status_mpd_section_action_callback, hp]
  · unfold _j4status_mpd_section_start
    split <;> rfl

/-- Witness for C21: the sample section with `stop` pending and its action command
in flight handles `OK`. -/
theorem C21_pending_cleared_only_by_action_ok_witness :
    (_j4status_mpd_section_line_callback sample_context 1
        { sample_section with pending := ACTION_STOP, command := COMMAND_ACTION }
        "OK".toList MPD_ERROR_SUCCESS).data.pending = ACTION_NONE ∧
    (_j4status_mpd_section_line_callback sample_context 1
        { sample_section with pending := ACTION_STOP, command := COMMAND_ACTION }
        "changed: player".toList MPD_ERROR_SUCCESS).data.pending = ACTION_STOP :=
  ⟨((C21_pending_cleared_only_by_action_ok
      { sample_section with pending := ACTION_STOP, command := COMMAND_ACTION }
      (by decide)).1 sample_context 1 "OK".toList MPD_ERROR_SUCCESS).trans (by decide),
   ((C21_pending_cleared_only_by_action_ok
      { sample_section with pending := ACTION_STOP, command := COMMAND_ACTION }
      (by decide)).1 sample_context 1 "changed: player".toList MPD_ERROR_SUCCESS).trans
      (by decide)⟩


/-- Lines other than `OK` handled while `password` is in flight change nothing. -/
theorem handle_lines_password (context : J4statusPluginContext) (self : Nat)
    (lines : List CString) (s : J4statusMpdSection) (hc : s.command = COMMAND_PASSWORD)
    (hok : ∀ x ∈ lines, x ≠ "OK".toList) : handle_lines context self s lines = s := by
  induction lines with
  | nil => rfl
  | cons x rest ih =>
    have hx := line_callback_password context self s x hc
    rw [if_neg (hok x (List.mem_cons_self _ _))] at hx
    have hrest := ih (fun y hy => hok y (List.mem_cons_of_mem _ hy))
    simp only [handle_lines, List.foldl_cons] at hrest ⊢
    rw [hx]
    exact hrest

/-- An action request that arrives with nothing pending while PASSWORD or QUERY is
the active command only records the action read from the table; after any further
lines other than `OK`, handling `OK` sends that action's command.  Stated with the
table read-out as the callback computes it. -/
theorem request_deferred_lookup (context : J4statusPluginContext) (self : Nat)
    (actions : List (CString × Fin 6)) (s : J4statusMpdSection) (event_id : CString)
    (lines : List CString) (hp : s.pending = ACTION_NONE)
    (hc : s.command = COMMAND_PASSWORD ∨ s.command = COMMAND_QUERY)
    (hok : ∀ x ∈ lines, x ≠ "OK".toList) :
    _j4status_mpd_section_action_callback actions s event_id =
      { s with pending := J4statusMpdAction.ofUInt (g_hash_table_lookup actions event_id) } ∧
    ∃ c,
      spec_action_command (J4statusMpdAction.ofUInt (g_hash_table_lookup actions event_id))
        (handle_lines context self
          (_j4status_mpd_section_action_callback actions s event_id) lines).state = some c ∧
      (_j4status_mpd_section_line_callback context self
        (handle_lines context self (_j4status_mpd_section_action_callback actions s event_id)
          lines) "OK".toList MPD_ERROR_SUCCESS).data.mpd = s.mpd ++ [c] ∧
      (_j4status_mpd_section_line_callback context self
        (handle_lines context self (_j4status_mpd_section_action_callback actions s event_id)
          lines) "OK".toList MPD_ERROR_SUCCESS).data.command = COMMAND_ACTION ∧
      (_j4status_mpd_section_line_callback context self
        (handle_lines context self (_j4status_mpd_section_action_callback actions s event_id)
          lines) "OK".toList MPD_ERROR_SUCCESS).data.pending =
        J4statusMpdAction.ofUInt (g_hash_table_lookup actions event_id) := by
  have hne := lookup_ne_none actions event_id
  have hact : _j4status_mpd_section_action_callback actions s event_id =
      { s with pending := J4statusMpdAction.ofUInt (g_hash_table_lookup actions event_id) } := by
    rcases hc with hc | hc <;> simp [_j4status_mpd_section_action_callback, hp, hc]
  refine ⟨hact, ?_⟩
  have key : ∀ s1 : J4statusMpdSection, s1.pending ≠ ACTION_NONE →
      (s1.command = COMMAND_PASSWORD ∨ s1.command = COMMAND_QUERY) →
      ∃ c, spec_action_command s1.pending (handle_lines context self s1 lines).state = some c ∧
        (_j4status_mpd_section_line_callback context self (handle_lines context self s1 lines)
          "OK".toList MPD_ERROR_SUCCESS).data.mpd = s1.mpd ++ [c] ∧
        (_j4status_mpd_section_line_callback context self (handle_lines context self s1 lines)
          "OK".toList MPD_ERROR_SUCCESS).data.command = COMMAND_ACTION ∧
        (_j4status_mpd_section_line_callback context self (handle_lines context self s1 lines)
          "OK".toList MPD_ERROR_SUCCESS).data.pending = s1.pending := by
    intro s1 hp1 hc1
    rcases hc1 with hc1 | hc1
    · rw [handle_lines_password context self lines s1 hc1 hok]
      rw [line_callback_password context self s1 "OK".toList hc1, if_pos rfl]
      obtain ⟨c, h1, h2⟩ := section_command_pending s1 COMMAND_QUERY none hp1
      exact ⟨c, h1, by rw [h2], by rw [h2], by rw [h2]⟩
    · rw [handle_lines_eq context self lines s1 hc1 hok]
      rw [line_callback_query_ok context self (apply_effect (lines_effect lines) s1) hc1]
      obtain ⟨c, h1, h2⟩ := section_command_pending
        (_j4status_mpd_section_update (apply_effect (lines_effect lines) s1))
        COMMAND_IDLE none hp1
      exact ⟨c, h1, by rw [h2]; rfl, by rw [h2], by rw [h2]; rfl⟩
  rw [hact]
  exact key { s with pending := J4statusMpdAction.ofUInt (g_hash_table_lookup actions event_id) }
    hne hc

/-- An event identifier that is not a key of the table is looked up as 0. -/
theorem lookup_missing (actions : List (CString × Fin 6)) (event_id : CString)
    (h : event_id ∉ actions.map Prod.fst) : g_hash_table_lookup actions event_id = 0 := by
  induction actions with
  | nil => rfl
  | cons e rest ih =>
    obtain ⟨k, v⟩ := e
    simp only [List.map_cons, List.mem_cons, not_or] at h
    have hk : ¬ k = event_id := fun hk => h.1 hk.symm
    simp only [g_hash_table_lookup, hk, if_false]
    exact ih h.2

/-- An accepted action request (nothing pending, active command not ACTION) stores
as pending the table read-out for the event identifier, as the callback computes
it, and sends `noidle` first exactly when idle; for an identifier that is not a
key of the table the read-out is 0 and the pending action becomes toggle. -/
theorem accepted_request_lookup (actions : List (CString × Fin 6))
    (s : J4statusMpdSection) (event_id : CString) (hp : s.pending = ACTION_NONE)
    (hc : s.command ≠ COMMAND_ACTION) :
    _j4status_mpd_section_action_callback actions s event_id =
      { s with
        pending := J4statusMpdAction.ofUInt (g_hash_table_lookup actions event_id),
        mpd := if s.command = COMMAND_IDLE
          then s.mpd ++ [{ command := "noidle".toList, args := [] }] else s.mpd } ∧
    (event_id ∉ actions.map Prod.fst →
      g_hash_table_lookup actions event_id = 0 ∧
      (_j4status_mpd_section_action_callback actions s event_id).pending = ACTION_TOGGLE) := by
  have h1 : _j4status_mpd_section_action_callback actions s event_id =
      { s with
        pending := J4statusMpdAction.ofUInt (g_hash_table_lookup actions event_id),
        mpd := if s.command = COMMAND_IDLE
          then s.mpd ++ [{ command := "noidle".toList, args := [] }] else s.mpd } := by
    cases hcmd : s.command <;>
      simp_all [_j4status_mpd_section_action_callback, mpd_async_send_command, va_args]
  refine ⟨h1, ?_⟩
  intro hmiss
  have h0 := lookup_missing actions event_id hmiss
  refine ⟨h0, ?_⟩
  rw [h1, h0]
  rfl

/-- Without a transport error the result of the line handler is 'continue', the
same context, no free, and the section it computed. -/
theorem line_callback_success_eq (context : J4statusPluginContext) (self : Nat)
    (s : J4statusMpdSection) (line : CString) :
    _j4status_mpd_section_line_callback context self s line MPD_ERROR_SUCCESS =
      { ret := G_SOURCE_CONTINUE, context := context,
        data := (_j4status_mpd_section_line_callback context self s line MPD_ERROR_SUCCESS).data,
        freed := false } := by
  obtain ⟨h1, h2, h3⟩ := line_callback_success context self s line
  cases hr : _j4status_mpd_section_line_callback context self s line MPD_ERROR_SUCCESS with
  | mk ret ctx data freed =>
    rw [hr] at h1 h2 h3
    simp only at h1 h2 h3
    rw [h1, h2, h3]

/-- A line with none of the recognised keys assigns nothing. -/
theorem line_effect_unrecognised (line : CString)
    (hkeys : spec_has_recognised_key line = false) : line_effect line = LineEffect.nothing := by
  simp only [spec_has_recognised_key, Bool.or_eq_false_iff] at hkeys
  obtain ⟨⟨⟨⟨⟨⟨⟨⟨h1, h2⟩, h3⟩, h4⟩, h5⟩, h6⟩, h7⟩, h8⟩, h9⟩ := hkeys
  have h3' : ¬ g_ascii_strncasecmp line "file: ".toList (strlen "file: ".toList) = 0 := by
    intro hz
    have := (strncasecmp_eq_zero_iff _ file_key_no_nul line).mp hz
    rw [h3] at this
    exact absurd this (by simp)
  have h4' : ¬ g_ascii_strncasecmp line "Title: ".toList (strlen "Title: ".toList) = 0 := by
    intro hz
    have := (strncasecmp_eq_zero_iff _ title_key_no_nul line).mp hz
    rw [h4] at this
    exact absurd this (by simp)
  have hb : ∀ k : CString, k.isPrefixOf line = false → ¬ g_str_has_prefix line k = true := by
    intro k hk
    unfold g_str_has_prefix
    rw [hk]
    simp
  unfold line_effect
  rw [if_neg (hb _ h1), if_neg (hb _ h2), if_neg h3', if_neg h4', if_neg (hb _ h5),
    if_neg (hb _ h6), if_neg (hb _ h7), if_neg (hb _ h8), if_neg (hb _ h9)]

/-- A `state: ` line whose value is not play, pause or stop assigns nothing. -/
theorem line_effect_unknown_state (value : CString) (h1 : value ≠ "play".toList)
    (h2 : value ≠ "pause".toList) (h3 : value ≠ "stop".toList) :
    line_effect ("state: ".toList ++ value) = LineEffect.nothing := by
  have hp : g_str_has_prefix ("state: ".toList ++ value) "state: ".toList = true := by
    simp [ g_str_has_prefix]
  have hd : List.drop (strlen "state: ".toList) ("state: ".toList ++ value) = value := by
    simp [strlen]
  unfold line_effect
  rw [if_pos hp]
  simp only [hd]
  rw [if_neg h1, if_neg h2, if_neg h3]

/-- C27: while QUERY is the active command, a line other than `OK` that has none
of the recognised keys (`file: ` and `Title: ` matched ASCII-case-insensitively as
the specification says, the other seven exactly) is ignored: the handler returns
'continue', frees nothing, sends nothing and leaves context and section as they
are.  A `state: ` line whose value is not play, pause or stop is ignored in the
same way. -/
theorem C27_unrecognised_line_ignored (context : J4statusPluginContext) (self : Nat)
    (s : J4statusMpdSection) (line : CString) (hc : s.command = COMMAND_QUERY)
    (hok : line ≠ "OK".toList) (hkeys : spec_has_recognised_key line = false) :
    _j4status_mpd_section_line_callback context self s line MPD_ERROR_SUCCESS =
      { ret := G_SOURCE_CONTINUE, context := context, data := s, freed := false } ∧
    ∀ value : CString, value ≠ "play".toList → value ≠ "pause".toList →
      value ≠ "stop".toList →
      _j4status_mpd_section_line_callback context self s ("state: ".toList ++ value)
          MPD_ERROR_SUCCESS =
        { ret := G_SOURCE_CONTINUE, context := context, data := s, freed := false } := by
  constructor
  · rw [line_callback_success_eq, query_line_effect context self s line hc hok,
      line_effect_unrecognised line hkeys, apply_effect_nothing]
  · intro value h1 h2 h3
    have hok' : "state: ".toList ++ value ≠ "OK".toList := by
      intro h
      have := congrArg List.head? h
      simp at this
    rw [line_callback_success_eq, query_line_effect context self s _ hc hok',
      line_effect_unknown_state value h1 h2 h3, apply_effect_nothing]

/-- Witness for C27: `audio: 44100:24:2` and `state: unknown` during a query. -/
theorem C27_unrecognised_line_ignored_witness :
    _j4status_mpd_section_line_callback sample_context 1 sample_fresh_section
        "audio: 44100:24:2".toList MPD_ERROR_SUCCESS =
      { ret := G_SOURCE_CONTINUE, context := sample_context, data := sample_fresh_section,
        freed := false } ∧
    _j4status_mpd_section_line_callback sample_context 1 sample_fresh_section
        ("state: ".toList ++ "unknown".toList) MPD_ERROR_SUCCESS =
      { ret := G_SOURCE_CONTINUE, context := sample_context, data := sample_fresh_section,
        freed := false } :=
  ⟨(C27_unrecognised_line_ignored sample_context 1 sample_fresh_section
      "audio: 44100:24:2".toList rfl (by decide) (by decide)).1,
   (C27_unrecognised_line_ignored sample_context 1 sample_fresh_section
      "audio: 44100:24:2".toList rfl (by decide) (by decide)).2 "unknown".toList
      (by decide) (by decide) (by decide)⟩


/-- A line whose key is `file: ` is none of the lines the handler tests for
before the file test. -/
theorem file_line_not_earlier {line : CString} (h : has_key "file: ".toList line = true) :
    ¬ g_str_has_prefix line "state: ".toList = true ∧
      ¬ g_str_has_prefix line "updating_db: ".toList = true := by
  obtain ⟨c, rest, rfl, hc⟩ := has_key_head 'f' "ile: ".toList h
  have hf : g_ascii_tolower 'f' = 'f' := by decide
  rw [hf] at hc
  constructor
  · intro hp
    obtain ⟨r, hr⟩ := has_prefix_head 's' "tate: ".toList hp
    have : c = 's' := (List.cons.inj hr).1
    rw [this] at hc
    exact absurd hc (by decide)
  · intro hp
    obtain ⟨r, hr⟩ := has_prefix_head 'u' "pdating_db: ".toList hp
    have : c = 'u' := (List.cons.inj hr).1
    rw [this] at hc
    exact absurd hc (by decide)

/-- The fallback title a line assigns: for a line whose key is `file: `, the base
name of the path up to its first '.'; nothing for any other line. -/
theorem line_effect_current_filename (line : CString) :
    (line_effect line).current_filename =
      if has_key "file: ".toList line then
        some ((g_path_get_basename (line.drop (strlen "file: ".toList))).takeWhile
          (fun x => x != '.'))
      else none := by
  by_cases hk : has_key "file: ".toList line = true
  · obtain ⟨h1, h2⟩ := file_line_not_earlier hk
    have h3 : g_ascii_strncasecmp line "file: ".toList (strlen "file: ".toList) = 0 :=
      (strncasecmp_eq_zero_iff _ file_key_no_nul line).mpr hk
    rw [if_pos hk, ← take_strchr_eq_takeWhile]
    unfold line_effect
    rw [if_neg h1, if_neg h2, if_pos h3]
    dsimp only
    generalize g_utf8_strchr _ _ = ext
    cases ext <;> rfl
  · have h3 : ¬ g_ascii_strncasecmp line "file: ".toList (strlen "file: ".toList) = 0 :=
      fun hz => hk ((strncasecmp_eq_zero_iff _ file_key_no_nul line).mp hz)
    rw [if_neg hk]
    unfold line_effect
    rw [if_neg h3]
    repeat' first
      | rfl
      | apply ite_prop (fun e : LineEffect => e.current_filename = none)

/-- The fallback title after one call of the line handler: it changes only for a
line whose key is `file: `, handled without transport error while QUERY is the
active command. -/
theorem line_callback_current_filename (context : J4statusPluginContext) (self : Nat)
    (s : J4statusMpdSection) (line : CString) (error : mpd_error) :
    (_j4status_mpd_section_line_callback context self s line error).data.current_filename =
      if error = MPD_ERROR_SUCCESS ∧ s.command = COMMAND_QUERY ∧
          has_key "file: ".toList line = true then
        some ((g_path_get_basename (line.drop (strlen "file: ".toList))).takeWhile
          (fun x => x != '.'))
      else s.current_filename := by
  by_cases he : error = MPD_ERROR_SUCCESS
  · subst he
    cases hc : s.command with
    | COMMAND_PASSWORD =>
      rw [if_neg (by simp), line_callback_password context self s line hc]
      split_ifs
      · exact (section_command_frame _ _ _).2
      · rfl
    | COMMAND_IDLE =>
      rw [if_neg (by simp), line_callback_idle context self s line hc]
      split_ifs <;> first | rfl | exact (section_command_frame _ _ _).2
    | COMMAND_QUERY =>
      by_cases hok : line = "OK".toList
      · subst hok
        rw [if_neg (by decide), line_callback_query_ok context self s hc]
        exact (section_command_frame _ _ _).2
      · rw [query_line_effect context self s line hc hok]
        show (line_effect line).current_filename.orElse (fun _ => s.current_filename) = _
        rw [line_effect_current_filename]
        by_cases hk : has_key "file: ".toList line = true
        · rw [if_pos hk, if_pos ⟨rfl, rfl, hk⟩]
          rfl
        · rw [if_neg hk, if_neg (fun h => hk h.2.2)]
          rfl
    | COMMAND_ACTION =>
      rw [if_neg (by simp), line_callback_action context self s line hc]
      split_ifs
      · exact (section_command_frame _ _ _).2
      · rfl
  · rw [line_callback_error _ _ _ _ _ he, if_neg (fun h => he h.1)]

/-- Lines without the key `file: `, whatever else they are and whatever the active
command, leave the fallback title as it is. -/
theorem handle_lines_no_file (context : J4statusPluginContext) (self : Nat)
    (lines : List CString) (s : J4statusMpdSection)
    (hfile : ∀ x ∈ lines, has_key "file: ".toList x = false) :
    (handle_lines context self s lines).current_filename = s.current_filename := by
  induction lines generalizing s with
  | nil => rfl
  | cons x rest ih =>
    have hx := line_callback_current_filename context self s x MPD_ERROR_SUCCESS
    rw [if_neg (fun h => by
      have := hfile x (List.mem_cons_self _ _)
      rw [this] at h
      exact absurd h.2.2 (by simp))] at hx
    have hrest := ih
      (_j4status_mpd_section_line_callback context self s x MPD_ERROR_SUCCESS).data
      (fun y hy => hfile y (List.mem_cons_of_mem _ hy))
    rw [hx] at hrest
    simpa [handle_lines] using hrest

/-- C30: the fallback title changes in one kind of step only, a line whose key is
`file: ` (up to ASCII case) handled without transport error while QUERY is the
active command.  Every other call of the line handler (idle notifications such as
`changed: player`, every `OK`, every other line), every dispatch, every action
request and every start event leave it as it is; so a whole query response
without a `file:` line, from the query dispatch to its `OK`, keeps the fallback
title from before. -/
theorem C30_fallback_title_changes_only_on_file_line (context : J4statusPluginContext)
    (self : Nat) (s : J4statusMpdSection) (lines : List CString)
    (hfile : ∀ x ∈ lines, has_key "file: ".toList x = false) :
    (∀ (line : CString) (error : mpd_error),
      (_j4status_mpd_section_line_callback context self s line error).data.current_filename =
        if error = MPD_ERROR_SUCCESS ∧ s.command = COMMAND_QUERY ∧
            has_key "file: ".toList line = true then
          some ((g_path_get_basename (line.drop (strlen "file: ".toList))).takeWhile
            (fun x => x != '.'))
        else s.current_filename) ∧
    (∀ (command : J4statusMpdCommand) (password : Option CString),
      (_j4status_mpd_section_command s command password).current_filename =
        s.current_filename) ∧
    (∀ (actions : List (CString × Fin 6)) (event_id : CString),
      (_j4status_mpd_section_action_callback actions s event_id).current_filename =
        s.current_filename) ∧
    (_j4status_mpd_section_start s).current_filename = s.current_filename ∧
    (handle_lines context self s lines).current_filename = s.current_filename ∧
    (handle_lines context self (_j4status_mpd_section_command s COMMAND_QUERY none)
      (lines ++ ["OK".toList])).current_filename = s.current_filename := by
  refine ⟨fun line error => line_callback_current_filename context self s line error,
    fun command password => (section_command_frame s command password).2, ?_, ?_,
    handle_lines_no_file context self lines s hfile, ?_⟩
  · intro actions event_id
    by_cases hp : s.pending = ACTION_NONE <;> cases hc : s.command <;>
      simp [_j4status_mpd_section_action_callback, hp, hc]
  · unfold _j4status_mpd_section_start
    split <;> rfl
  · rw [handle_lines_no_file context self (lines ++ ["OK".toList]) _ (by
      intro x hx
      rcases List.mem_append.mp hx with hx | hx
      · exact hfile x hx
      · simp only [List.mem_singleton] at hx
        rw [hx]
        decide)]
    exact (section_command_frame s COMMAND_QUERY none).2

/-- Witness for C30: the sample section keeps its fallback title `old` through a
query whose response has a title but no file. -/
theorem C30_fallback_title_changes_only_on_file_line_witness :
    (handle_lines sample_context 1
      (_j4status_mpd_section_command sample_section COMMAND_QUERY none)
      (["state: stop".toList, "Title: Radio".toList] ++ ["OK".toList])).current_filename =
      sample_section.current_filename :=
  (C30_fallback_title_changes_only_on_file_line sample_context 1 sample_section
    ["state: stop".toList, "Title: Radio".toList] (by decide)).2.2.2.2.2


/-! ### What the callbacks can send -/

/-- The command line of every action in the specification's table has one of the
handler's command words. -/
theorem spec_action_command_word {a : J4statusMpdAction} {st : J4statusMpdSectionState}
    {c : MpdCommandLine} (h : spec_action_command a st = some c) :
    c.command ∈ handler_words := by
  cases a <;> cases st <;> simp [spec_action_command] at h <;> (subst h; decide)

/-- A dispatch of QUERY or IDLE appends only lines with the handler's command
words. -/
theorem section_command_sent (s : J4statusMpdSection) (command : J4statusMpdCommand)
    (password : Option CString)
    (hc : command = COMMAND_QUERY ∨ command = COMMAND_IDLE) :
    ∃ sent, (_j4status_mpd_section_command s command password).mpd = s.mpd ++ sent ∧
      ∀ x ∈ sent, x.command ∈ handler_words := by
  by_cases hp : s.pending = ACTION_NONE
  · rcases hc with hc | hc
    · subst hc
      rw [section_command_query s password hp]
      exact ⟨query_batch, rfl, by decide⟩
    · subst hc
      obtain ⟨args, ha⟩ := section_command_idle s password hp
      rw [ha]
      refine ⟨[{ command := "idle".toList, args := args }], rfl, ?_⟩
      intro x hx
      simp only [List.mem_singleton] at hx
      rw [hx]
      show "idle".toList ∈ handler_words
      decide
  · obtain ⟨c, h1, h2⟩ := section_command_pending s command password hp
    rw [h2]
    refine ⟨[c], rfl, ?_⟩
    intro x hx
    simp only [List.mem_singleton] at hx
    rw [hx]
    exact spec_action_command_word h1

/-- A dispatch of QUERY or IDLE makes ACTION the active command only when an
action is pending, and leaves the pending action as it is. -/
theorem section_command_action_pending (s : J4statusMpdSection)
    (command : J4statusMpdCommand) (password : Option CString)
    (hc : command = COMMAND_QUERY ∨ command = COMMAND_IDLE) :
    (_j4status_mpd_section_command s command password).command = COMMAND_ACTION →
      (_j4status_mpd_section_command s command password).pending ≠ ACTION_NONE := by
  by_cases hp : s.pending = ACTION_NONE
  · rcases hc with hc | hc <;> subst hc <;> simp [_j4status_mpd_section_command, hp]
  · intro _
    rw [(section_command_frame s command password).1]
    exact hp

/-- The shape of the section after one call of the line handler: either the
section as it was up to assignments that leave command, pending action and sent
lines alone, or the result of a QUERY or IDLE dispatch on such a section. -/
theorem line_callback_shape (context : J4statusPluginContext) (self : Nat)
    (s : J4statusMpdSection) (line : CString) (error : mpd_error) :
    ((_j4status_mpd_section_line_callback context self s line error).data.mpd = s.mpd ∧
      (_j4status_mpd_section_line_callback context self s line error).data.command =
        s.command ∧
      (_j4status_mpd_section_line_callback context self s line error).data.pending =
        s.pending) ∨
    ∃ (t : J4statusMpdSection) (command : J4statusMpdCommand),
      t.mpd = s.mpd ∧ (command = COMMAND_QUERY ∨ command = COMMAND_IDLE) ∧
      (_j4status_mpd_section_line_callback context self s line error).data =
        _j4status_mpd_section_command t command none := by
  by_cases he : error = MPD_ERROR_SUCCESS
  · subst he
    cases hc : s.command with
    | COMMAND_PASSWORD =>
      rw [line_callback_password context self s line hc]
      by_cases hok : line = "OK".toList
      · rw [if_pos hok]
        exact Or.inr ⟨s, COMMAND_QUERY, rfl, Or.inl rfl, rfl⟩
      · rw [if_neg hok]
        exact Or.inl ⟨rfl, hc, rfl⟩
    | COMMAND_IDLE =>
      rw [line_callback_idle context self s line hc]
      by_cases hch : g_str_has_prefix line "changed: ".toList = true
      · rw [if_pos hch]
        left
        split_ifs <;> exact ⟨rfl, hc, rfl⟩
      · rw [if_neg hch]
        by_cases hok : line = "OK".toList
        · rw [if_pos hok]
          refine Or.inr ⟨s, if context.started then COMMAND_QUERY else COMMAND_IDLE, rfl, ?_,
            rfl⟩
          cases context.started <;> simp
        · rw [if_neg hok]
          exact Or.inl ⟨rfl, hc, rfl⟩
    | COMMAND_QUERY =>
      by_cases hok : line = "OK".toList
      · subst hok
        rw [line_callback_query_ok context self s hc]
        exact Or.inr ⟨_j4status_mpd_section_update s, COMMAND_IDLE, rfl, Or.inr rfl, rfl⟩
      · rw [query_line_effect context self s line hc hok]
        exact Or.inl ⟨rfl, hc, rfl⟩
    | COMMAND_ACTION =>
      rw [line_callback_action context self s line hc]
      by_cases hok : line = "OK".toList
      · rw [if_pos hok]
        exact Or.inr ⟨{ s with pending := ACTION_NONE }, COMMAND_QUERY, rfl, Or.inl rfl, rfl⟩
      · rw [if_neg hok]
        exact Or.inl ⟨rfl, hc, rfl⟩
  · rw [line_callback_error _ _ _ _ _ he]
    exact Or.inl ⟨rfl, rfl, rfl⟩

/-- The line handler appends only lines with the handler's command words. -/
theorem line_callback_sent (context : J4statusPluginContext) (self : Nat)
    (s : J4statusMpdSection) (line : CString) (error : mpd_error) :
    ∃ sent, (_j4status_mpd_section_line_callback context self s line error).data.mpd =
        s.mpd ++ sent ∧ ∀ x ∈ sent, x.command ∈ handler_words := by
  rcases line_callback_shape context self s line error with ⟨h, -, -⟩ | ⟨t, c, ht, hc, hd⟩
  · exact ⟨[], by rw [h]; simp, by simp⟩
  · obtain ⟨sent, h1, h2⟩ := section_command_sent t c none hc
    rw [hd, h1, ht]
    exact ⟨sent, rfl, h2⟩

/-- The action callback appends nothing or `noidle`. -/
theorem action_callback_sent (actions : List (CString × Fin 6)) (s : J4statusMpdSection)
    (event_id : CString) :
    ∃ sent, (_j4status_mpd_section_action_callback actions s event_id).mpd = s.mpd ++ sent ∧
      ∀ x ∈ sent, x.command ∈ handler_words := by
  by_cases hp : s.pending = ACTION_NONE
  · cases hc : s.command with
    | COMMAND_IDLE =>
      refine ⟨[{ command := "noidle".toList, args := [] }], ?_, by decide⟩
      simp [_j4status_mpd_section_action_callback, hp, hc, mpd_async_send_command, va_args]
    | COMMAND_PASSWORD =>
      exact ⟨[], by simp [_j4status_mpd_section_action_callback, hp, hc], by simp⟩
    | COMMAND_QUERY =>
      exact ⟨[], by simp [_j4status_mpd_section_action_callback, hp, hc], by simp⟩
    | COMMAND_ACTION =>
      exact ⟨[], by simp [_j4status_mpd_section_action_callback, hp, hc], by simp⟩
  · exact ⟨[], by simp [_j4status_mpd_section_action_callback, hp], by simp⟩

/-- The start callback appends nothing or `noidle`. -/
theorem section_start_sent (s : J4statusMpdSection) :
    ∃ sent, (_j4status_mpd_section_start s).mpd = s.mpd ++ sent ∧
      ∀ x ∈ sent, x.command ∈ handler_words := by
  unfold _j4status_mpd_section_start
  split
  · exact ⟨[{ command := "noidle".toList, args := [] }],
      by simp [mpd_async_send_command, va_args], by decide⟩
  · exact ⟨[], by simp, by simp⟩

/-- A command word that is not one of the handler's, and was not sent so far in
any live section, is never sent by any sequence of events. -/
theorem run_never_sends (bad : CString) (hbad : bad ∉ handler_words) (w : World)
    (events : List Event) (h : ∀ e ∈ w.heap, ∀ c ∈ e.2.mpd, c.command ≠ bad) :
    ∀ e ∈ (run w events).heap, ∀ c ∈ e.2.mpd, c.command ≠ bad := by
  have hkeep : ∀ (old sent : List MpdCommandLine), (∀ c ∈ old, c.command ≠ bad) →
      (∀ x ∈ sent, x.command ∈ handler_words) → ∀ c ∈ old ++ sent, c.command ≠ bad := by
    intro old sent h1 h2 c hc
    rcases List.mem_append.mp hc with hc | hc
    · exact h1 c hc
    · intro hcb
      exact hbad (hcb ▸ h2 c hc)
  refine run_invariant (fun s => ∀ c ∈ s.mpd, c.command ≠ bad) ?_ ?_ ?_ w events h
  · intro context self s line error hs
    obtain ⟨sent, h1, h2⟩ := line_callback_sent context self s line error
    rw [h1]
    exact hkeep _ _ hs h2
  · intro actions s event_id hs
    obtain ⟨sent, h1, h2⟩ := action_callback_sent actions s event_id
    rw [h1]
    exact hkeep _ _ hs h2
  · intro s hs
    obtain ⟨sent, h1, h2⟩ := section_start_sent s
    rw [h1]
    exact hkeep _ _ hs h2


/-- The section made by `_j4status_mpd_section_new` with a password: zeroed but
for the parsed format, volume -1, nothing pending, and `password` sent. -/
theorem section_new_with_password (format : List Nat) (used_tokens : Nat)
    (credential : CString) (hu : used_tokens ≠ 0) :
    _j4status_mpd_section_new true true format used_tokens (some credential) =
      some { «section» := [],
             mpd := [{ command := "password".toList, args := [credential] }],
             used_tokens := used_tokens, format := format, command := COMMAND_PASSWORD,
             pending := ACTION_NONE, current_song := none, current_filename := none,
             state := STATE_PLAY, updating := false, «repeat» := false, random := false,
             single := false, consume := false, volume := -1 } := by
  simp [_j4status_mpd_section_new, hu, _j4status_mpd_section_command, mpd_async_send_command,
    va_args]

/-- The section made by `_j4status_mpd_section_new` without a password: zeroed but
for the parsed format, volume -1, nothing pending, and the query batch sent. -/
theorem section_new_without_password (format : List Nat) (used_tokens : Nat)
    (hu : used_tokens ≠ 0) :
    _j4status_mpd_section_new true true format used_tokens none =
      some { «section» := [], mpd := query_batch,
             used_tokens := used_tokens, format := format, command := COMMAND_QUERY,
             pending := ACTION_NONE, current_song := none, current_filename := none,
             state := STATE_PLAY, updating := false, «repeat» := false, random := false,
             single := false, consume := false, volume := -1 } := by
  simp [_j4status_mpd_section_new, hu, _j4status_mpd_section_command, mpd_async_send_command,
    va_args, query_batch]

/-- Whenever `_j4status_mpd_section_new` makes a section, it is one of the two
above. -/
theorem section_new_cases {source insert : Bool} {format : List Nat} {used_tokens : Nat}
    {password : Option CString} {s : J4statusMpdSection}
    (h : _j4status_mpd_section_new source insert format used_tokens password = some s) :
    (s.command = COMMAND_PASSWORD ∨ s.command = COMMAND_QUERY) ∧ s.pending = ACTION_NONE ∧
      (∀ c ∈ s.mpd, c.command ≠ []) ∧
      (password = none → ∀ c ∈ s.mpd, c.command ≠ "password".toList) := by
  have hu : used_tokens ≠ 0 := by
    intro hz
    subst hz
    unfold _j4status_mpd_section_new at h
    cases source <;> cases insert <;> simp at h
  have hsrc : source = true ∧ insert = true := by
    unfold _j4status_mpd_section_new at h
    cases source <;> cases insert <;> simp at h
    exact ⟨rfl, rfl⟩
  obtain ⟨h1, h2⟩ := hsrc
  subst h1
  subst h2
  cases password with
  | none =>
    rw [section_new_without_password format used_tokens hu] at h
    have hs := (Option.some.inj h).symm
    subst hs
    refine ⟨Or.inr rfl, rfl, ?_, fun _ => ?_⟩
    · show ∀ c ∈ query_batch, c.command ≠ []
      decide
    · show ∀ c ∈ query_batch, c.command ≠ "password".toList
      decide
  | some credential =>
    rw [section_new_with_password format used_tokens credential hu] at h
    have hs := (Option.some.inj h).symm
    subst hs
    refine ⟨Or.inl rfl, rfl, ?_, fun hn => by simp at hn⟩
    intro c hc
    simp only [List.mem_singleton] at hc
    rw [hc]
    show "password".toList ≠ []
    decide

/-- C28: in every state reached from a freshly initialised plugin by any sequence
of lines, transport errors, action requests (the table of configured events only
holds the six actions), start and stop events, a live section whose active
command is ACTION has an action pending; and no command line with an empty
command word was ever sent, which is what the `ACTION_NONE` case behind
`g_assert_not_reached ()` would send, so that case was never run. -/
theorem C28_action_in_flight_has_pending (config : J4statusMpdConfig)
    (host password : Option CString) (source insert : Bool) (format : List Nat)
    (used_tokens addr : Nat) (w : World) (events : List Event) (p : Nat)
    (s : J4statusMpdSection)
    (hinit : _j4status_mpd_init config host password source insert format used_tokens addr
      = some w)
    (hs : heap_get (run w events).heap p = some s) :
    (s.command = COMMAND_ACTION → s.pending ≠ ACTION_NONE) ∧ assert_not_reached s := by
  obtain ⟨s0, hnew, hheap, -, -, -⟩ := init_heap hinit
  obtain ⟨hc0, hp0, hw0, -⟩ := section_new_cases hnew
  constructor
  · have h0 : ∀ e ∈ w.heap, (e.2.command = COMMAND_ACTION → e.2.pending ≠ ACTION_NONE) := by
      intro e he
      rw [hheap] at he
      simp only [List.mem_singleton] at he
      subst he
      intro hca
      rcases hc0 with h | h <;> simp [h] at hca
    have hrun := run_invariant
      (fun s => s.command = COMMAND_ACTION → s.pending ≠ ACTION_NONE) ?_ ?_ ?_ w events h0
    · exact hrun _ (heap_get_mem hs)
    · intro context self t line error ht
      rcases line_callback_shape context self t line error with ⟨-, h2, h3⟩ | ⟨u, c, -, hc, hd⟩
      · rw [h2, h3]
        exact ht
      · rw [hd]
        exact section_command_action_pending u c none hc
    · intro actions t event_id ht
      by_cases hp : t.pending = ACTION_NONE
      · cases hc : t.command with
        | COMMAND_ACTION =>
          intro _
          exact absurd hp (ht hc)
        | COMMAND_PASSWORD => simp [_j4status_mpd_section_action_callback, hp, hc]
        | COMMAND_IDLE => simp [_j4status_mpd_section_action_callback, hp, hc]
        | COMMAND_QUERY => simp [_j4status_mpd_section_action_callback, hp, hc]
      · have hsame : _j4status_mpd_section_action_callback actions t event_id = t := by
          simp [_j4status_mpd_section_action_callback, hp]
        rw [hsame]
        exact ht
    · intro t ht
      unfold _j4status_mpd_section_start
      split <;> exact ht
  · have h0 : ∀ e ∈ w.heap, ∀ c ∈ e.2.mpd, c.command ≠ [] := by
      intro e he
      rw [hheap] at he
      simp only [List.mem_singleton] at he
      subst he
      exact hw0
    exact run_never_sends [] (by decide) w events h0 _ (heap_get_mem hs)

/-- Witness for C28: the fresh sample plugin after a click, the end of the query
and the end of the idle command. -/
theorem C28_action_in_flight_has_pending_witness :
    heap_get (run sample_world
        [Event.action 1 "mouse:3".toList, Event.line 1 "OK".toList MPD_ERROR_SUCCESS]).heap 1 =
      some { sample_fresh_section with
             «section» := [J4statusSectionCall.set_state J4STATUS_STATE_GOOD,
                           J4statusSectionCall.set_value
                             [some (GVariant.byte 0), some (GVariant.byte 0)]],
             mpd := sample_fresh_section.mpd ++ [{ command := "next".toList, args := [] }],
             command := COMMAND_ACTION, pending := ACTION_NEXT } ∧
    ((COMMAND_ACTION = COMMAND_ACTION → ACTION_NEXT ≠ ACTION_NONE) ∧
      assert_not_reached
        { sample_fresh_section with
          «section» := [J4statusSectionCall.set_state J4STATUS_STATE_GOOD,
                        J4statusSectionCall.set_value
                          [some (GVariant.byte 0), some (GVariant.byte 0)]],
          mpd := sample_fresh_section.mpd ++ [{ command := "next".toList, args := [] }],
          command := COMMAND_ACTION, pending := ACTION_NEXT }) :=
  ⟨by decide,
   C28_action_in_flight_has_pending sample_context.config (some "localhost".toList) none
     true true [TOKEN_SONG, TOKEN_STATE] (TOKEN_FLAG_SONG ||| TOKEN_FLAG_STATE) 1 sample_world
     [Event.action 1 "mouse:3".toList, Event.line 1 "OK".toList MPD_ERROR_SUCCESS] 1
     { sample_fresh_section with
       «section» := [J4statusSectionCall.set_state J4STATUS_STATE_GOOD,
                     J4statusSectionCall.set_value
                       [some (GVariant.byte 0), some (GVariant.byte 0)]],
       mpd := sample_fresh_section.mpd ++ [{ command := "next".toList, args := [] }],
       command := COMMAND_ACTION, pending := ACTION_NEXT }
     (by decide) (by decide)⟩


/-- C25: a section created with a credential has sent exactly one line,
`password` with the credential as its only argument, and has PASSWORD as active
command with nothing pending.  While PASSWORD is the active command a line other
than `OK` changes nothing, an action request and a start event send nothing, and
`OK` with nothing pending sends the query batch and makes QUERY the active
command.  A section created without a credential has sent exactly the query
batch, and in no state reached from a plugin initialised without a credential
has any section ever sent `password`. -/
theorem C25_password_then_query (config : J4statusMpdConfig) (host : CString)
    (format : List Nat) (used_tokens addr : Nat) (credential : CString)
    (hu : used_tokens ≠ 0) :
    (∃ s0, _j4status_mpd_section_new true true format used_tokens (some credential) = some s0 ∧
      s0.mpd = [{ command := "password".toList, args := [credential] }] ∧
      s0.command = COMMAND_PASSWORD ∧ s0.pending = ACTION_NONE) ∧
    (∀ s : J4statusMpdSection, s.command = COMMAND_PASSWORD →
      (∀ (context : J4statusPluginContext) (self : Nat) (line : CString),
        line ≠ "OK".toList →
        (_j4status_mpd_section_line_callback context self s line MPD_ERROR_SUCCESS).data = s) ∧
      (∀ (actions : List (CString × Fin 6)) (event_id : CString),
        (_j4status_mpd_section_action_callback actions s event_id).mpd = s.mpd ∧
        (_j4status_mpd_section_action_callback actions s event_id).command =
          COMMAND_PASSWORD) ∧
      _j4status_mpd_section_start s = s ∧
      (s.pending = ACTION_NONE →
        ∀ (context : J4statusPluginContext) (self : Nat),
          (_j4status_mpd_section_line_callback context self s "OK".toList
              MPD_ERROR_SUCCESS).data =
            { s with current_song := none, mpd := s.mpd ++ query_batch,
                     command := COMMAND_QUERY })) ∧
    (∃ s1, _j4status_mpd_section_new true true format used_tokens none = some s1 ∧
      s1.mpd = query_batch ∧ s1.command = COMMAND_QUERY) ∧
    (∀ (w : World) (events : List Event) (p : Nat) (s : J4statusMpdSection),
      _j4status_mpd_init config (some host) none true true format used_tokens addr = some w →
      heap_get (run w events).heap p = some s → never_sent_password s) := by
  refine ⟨⟨_, section_new_with_password format used_tokens credential hu, rfl, rfl, rfl⟩, ?_,
    ⟨_, section_new_without_password format used_tokens hu, rfl, rfl⟩, ?_⟩
  · intro s hc
    refine ⟨?_, ?_, ?_, ?_⟩
    · intro context self line hok
      rw [line_callback_password context self s line hc, if_neg hok]
    · intro actions event_id
      by_cases hp : s.pending = ACTION_NONE
      · simp [_j4status_mpd_section_action_callback, hp, hc]
      · simp [_j4status_mpd_section_action_callback, hp, hc]
    · simp [_j4status_mpd_section_start, hc]
    · intro hp context self
      rw [line_callback_password context self s "OK".toList hc, if_pos rfl]
      exact section_command_query s none hp
  · intro w events p s hinit hs
    obtain ⟨s0, hnew, hheap, -, -, -⟩ := init_heap hinit
    obtain ⟨-, -, -, hpw⟩ := section_new_cases hnew
    have h0 : ∀ e ∈ w.heap, ∀ c ∈ e.2.mpd, c.command ≠ "password".toList := by
      intro e he
      rw [hheap] at he
      simp only [List.mem_singleton] at he
      subst he
      exact hpw rfl
    exact run_never_sends "password".toList (by decide) w events h0 _ (heap_get_mem hs)

/-- Witness for C25: the credential `secret` and a format with the song and state
tokens. -/
theorem C25_password_then_query_witness :
    ∃ s0, _j4status_mpd_section_new true true [TOKEN_SONG, TOKEN_STATE]
        (TOKEN_FLAG_SONG ||| TOKEN_FLAG_STATE) (some "secret".toList) = some s0 ∧
      s0.mpd = [{ command := "password".toList, args := ["secret".toList] }] ∧
      s0.command = COMMAND_PASSWORD ∧ s0.pending = ACTION_NONE :=
  (C25_password_then_query sample_context.config "localhost".toList [TOKEN_SONG, TOKEN_STATE]
    (TOKEN_FLAG_SONG ||| TOKEN_FLAG_STATE) 1 "secret".toList (by decide)).1

/-! ### The configured action of a bound event -/

/-- In a table with distinct keys, the read-out for a key that is bound is the
number stored in its entry. -/
theorem lookup_bound (actions : List (CString × Fin 6)) (event_id : CString) (v : Fin 6)
    (hkeys : (actions.map Prod.fst).Nodup) (hbound : (event_id, v) ∈ actions) :
    g_hash_table_lookup actions event_id = v.val := by
  induction actions with
  | nil => simp at hbound
  | cons e rest ih =>
    obtain ⟨k, u⟩ := e
    simp only [List.map_cons, List.nodup_cons] at hkeys
    obtain ⟨hk, hrest⟩ := hkeys
    rcases List.mem_cons.mp hbound with hb | hb
    · have h1 : k = event_id := (Prod.mk.inj hb).1.symm
      have h2 : u = v := (Prod.mk.inj hb).2.symm
      simp [g_hash_table_lookup, h1, h2]
    · have hne : ¬ k = event_id := by
        intro hke
        apply hk
        rw [hke]
        exact List.mem_map.mpr ⟨(event_id, v), hb, rfl⟩
      simp only [g_hash_table_lookup, hne, if_false]
      exact ih hrest hb

/-- Casting the integer value of an action back gives the action. -/
theorem ofUInt_toNat (a : J4statusMpdAction) : J4statusMpdAction.ofUInt a.toNat = a := by
  cases a <;> rfl

/-- The action read from a table with distinct keys for an event it binds to the
number of the action `a` is `a`. -/
theorem lookup_bound_action (actions : List (CString × Fin 6)) (event_id : CString)
    (v : Fin 6) (a : J4statusMpdAction) (hkeys : (actions.map Prod.fst).Nodup)
    (hbound : (event_id, v) ∈ actions) (ha : a.toNat = v.val) :
    J4statusMpdAction.ofUInt (g_hash_table_lookup actions event_id) = a := by
  rw [lookup_bound actions event_id v hkeys hbound, ← ha, ofUInt_toNat]

/-- C7: let the table of configured events have distinct keys and bind the event
to the number of the action `a`.  From a live section that is idle with nothing
pending, a request for that event, then any number of `changed: ` lines, then
`OK`, sends exactly two command lines, `noidle` followed by the command the
specification's table gives for `a`; afterwards ACTION is the active command and
`a` is still pending. -/
theorem C7_action_preempts_idle (w : World) (p : Nat) (s : J4statusMpdSection)
    (actions : List (CString × Fin 6)) (event_id : CString) (v : Fin 6)
    (a : J4statusMpdAction) (subsystems : List CString)
    (hs : heap_get w.heap p = some s)
    (hactions : w.context.config.actions = some actions)
    (hkeys : (actions.map Prod.fst).Nodup) (hbound : (event_id, v) ∈ actions)
    (ha : a.toNat = v.val)
    (hcommand : s.command = COMMAND_IDLE) (hpending : s.pending = ACTION_NONE) :
    ∃ s' c,
      heap_get (run w (Event.action p event_id ::
        (subsystems.map (fun x => Event.line p ("changed: ".toList ++ x) MPD_ERROR_SUCCESS) ++
          [Event.line p "OK".toList MPD_ERROR_SUCCESS]))).heap p = some s' ∧
      spec_action_command a s.state = some c ∧
      s'.mpd = s.mpd ++ [{ command := "noidle".toList, args := [] }, c] ∧
      s'.command = COMMAND_ACTION ∧ s'.pending = a ∧ a ≠ ACTION_NONE := by
  have hl := lookup_bound_action actions event_id v a hkeys hbound ha
  obtain ⟨s', c, h1, h2, h3, h4, h5, h6⟩ :=
    action_preempts_idle_lookup w p s actions event_id subsystems hs hactions hcommand hpending
  rw [hl] at h2 h5
  exact ⟨s', c, h1, h2, h3, h4, h5, h5 ▸ h6⟩

/-- Witness for C7: the idle sample section, a click on `mouse:3`, which the table
binds to 4, the number of `next`, two notifications and the acknowledgement; the
section ends with `noidle` and `next` sent. -/
theorem C7_action_preempts_idle_witness :
    (∃ s' c,
      heap_get (run { sample_world with heap := [(1, sample_section)] }
        (Event.action 1 "mouse:3".toList ::
          (["player".toList, "mixer".toList].map
              (fun x => Event.line 1 ("changed: ".toList ++ x) MPD_ERROR_SUCCESS) ++
            [Event.line 1 "OK".toList MPD_ERROR_SUCCESS]))).heap 1 = some s' ∧
      spec_action_command ACTION_NEXT sample_section.state = some c ∧
      s'.mpd = sample_section.mpd ++ [{ command := "noidle".toList, args := [] }, c] ∧
      s'.command = COMMAND_ACTION ∧ s'.pending = ACTION_NEXT ∧ ACTION_NEXT ≠ ACTION_NONE) ∧
    heap_get (run { sample_world with heap := [(1, sample_section)] }
        (Event.action 1 "mouse:3".toList ::
          (["player".toList, "mixer".toList].map
              (fun x => Event.line 1 ("changed: ".toList ++ x) MPD_ERROR_SUCCESS) ++
            [Event.line 1 "OK".toList MPD_ERROR_SUCCESS]))).heap 1 =
      some { sample_section with
             current_song := none,
             mpd := [{ command := "noidle".toList, args := [] },
                     { command := "next".toList, args := [] }],
             command := COMMAND_ACTION, pending := ACTION_NEXT } :=
  ⟨C7_action_preempts_idle { sample_world with heap := [(1, sample_section)] } 1
      sample_section [("mouse:1".toList, 0), ("mouse:3".toList, 4)] "mouse:3".toList 4
      ACTION_NEXT ["player".toList, "mixer".toList] (by decide) (by decide) (by decide)
      (by decide) (by decide) (by decide) (by decide),
   by decide⟩

/-- C22: let the table of configured events have distinct keys and bind the event
to the number of the action `a`.  A request for that event that arrives with
nothing pending while PASSWORD or QUERY is the active command only records `a`
as pending: nothing is sent and no other field changes.  After any further lines
other than `OK`, handling `OK` sends exactly one line, the command the
specification's table gives for `a`, instead of the query batch or `idle`, and
makes ACTION the active command with `a` still pending. -/
theorem C22_request_deferred_mid_command (context : J4statusPluginContext) (self : Nat)
    (actions : List (CString × Fin 6)) (s : J4statusMpdSection) (event_id : CString)
    (v : Fin 6) (a : J4statusMpdAction) (lines : List CString)
    (hkeys : (actions.map Prod.fst).Nodup) (hbound : (event_id, v) ∈ actions)
    (ha : a.toNat = v.val) (hp : s.pending = ACTION_NONE)
    (hc : s.command = COMMAND_PASSWORD ∨ s.command = COMMAND_QUERY)
    (hok : ∀ x ∈ lines, x ≠ "OK".toList) :
    _j4status_mpd_section_action_callback actions s event_id = { s with pending := a } ∧
    ∃ c,
      spec_action_command a
        (handle_lines context self { s with pending := a } lines).state = some c ∧
      (_j4status_mpd_section_line_callback context self
        (handle_lines context self (_j4status_mpd_section_action_callback actions s event_id)
          lines) "OK".toList MPD_ERROR_SUCCESS).data.mpd = s.mpd ++ [c] ∧
      (_j4status_mpd_section_line_callback context self
        (handle_lines context self (_j4status_mpd_section_action_callback actions s event_id)
          lines) "OK".toList MPD_ERROR_SUCCESS).data.command = COMMAND_ACTION ∧
      (_j4status_mpd_section_line_callback context self
        (handle_lines context self (_j4status_mpd_section_action_callback actions s event_id)
          lines) "OK".toList MPD_ERROR_SUCCESS).data.pending = a := by
  have hl := lookup_bound_action actions event_id v a hkeys hbound ha
  obtain ⟨h1, c, h2, h3, h4, h5⟩ :=
    request_deferred_lookup context self actions s event_id lines hp hc hok
  rw [hl] at h1 h2 h5
  rw [h1] at h2
  exact ⟨h1, c, h2, h3, h4, h5⟩

/-- Witness for C22: a click on `mouse:3`, bound to 4, the number of `next`,
during the first query; after `state: pause` the `OK` sends `next` and nothing
else. -/
theorem C22_request_deferred_mid_command_witness :
    (_j4status_mpd_section_action_callback [("mouse:1".toList, 0), ("mouse:3".toList, 4)]
        sample_fresh_section "mouse:3".toList =
      { sample_fresh_section with pending := ACTION_NEXT } ∧
    ∃ c,
      spec_action_command ACTION_NEXT
        (handle_lines sample_context 1 { sample_fresh_section with pending := ACTION_NEXT }
          ["state: pause".toList]).state = some c ∧
      (_j4status_mpd_section_line_callback sample_context 1
        (handle_lines sample_context 1
          (_j4status_mpd_section_action_callback
            [("mouse:1".toList, 0), ("mouse:3".toList, 4)] sample_fresh_section
            "mouse:3".toList)
          ["state: pause".toList]) "OK".toList MPD_ERROR_SUCCESS).data.mpd =
        sample_fresh_section.mpd ++ [c] ∧
      (_j4status_mpd_section_line_callback sample_context 1
        (handle_lines sample_context 1
          (_j4status_mpd_section_action_callback
            [("mouse:1".toList, 0), ("mouse:3".toList, 4)] sample_fresh_section
            "mouse:3".toList)
          ["state: pause".toList]) "OK".toList MPD_ERROR_SUCCESS).data.command =
        COMMAND_ACTION ∧
      (_j4status_mpd_section_line_callback sample_context 1
        (handle_lines sample_context 1
          (_j4status_mpd_section_action_callback
            [("mouse:1".toList, 0), ("mouse:3".toList, 4)] sample_fresh_section
            "mouse:3".toList)
          ["state: pause".toList]) "OK".toList MPD_ERROR_SUCCESS).data.pending =
        ACTION_NEXT) ∧
    (_j4status_mpd_section_line_callback sample_context 1
      (handle_lines sample_context 1
        (_j4status_mpd_section_action_callback
          [("mouse:1".toList, 0), ("mouse:3".toList, 4)] sample_fresh_section
          "mouse:3".toList)
        ["state: pause".toList]) "OK".toList MPD_ERROR_SUCCESS).data.mpd =
      sample_fresh_section.mpd ++ [{ command := "next".toList, args := [] }] :=
  ⟨C22_request_deferred_mid_command sample_context 1
      [("mouse:1".toList, 0), ("mouse:3".toList, 4)] sample_fresh_section "mouse:3".toList 4
      ACTION_NEXT ["state: pause".toList] (by decide) (by decide) (by decide) (by decide)
      (by decide) (by decide),
   by decide⟩

/-- C29: an accepted action request (nothing pending, active command not ACTION)
stores as pending the value the configured map holds for the event identifier:
when the map, whose keys are distinct, binds the identifier to the number of the
action `a`, the pending action becomes `a`; when the identifier is not a key of
the map the value read is 0 and the pending action becomes toggle instead of
staying none.  In both cases `noidle` is sent first exactly when the active
command is IDLE, and nothing else changes. -/
theorem C29_lookup_default_is_toggle (actions : List (CString × Fin 6))
    (s : J4statusMpdSection) (event_id : CString) (hp : s.pending = ACTION_NONE)
    (hc : s.command ≠ COMMAND_ACTION) :
    (∀ (v : Fin 6) (a : J4statusMpdAction), (actions.map Prod.fst).Nodup →
      (event_id, v) ∈ actions → a.toNat = v.val →
      _j4status_mpd_section_action_callback actions s event_id =
        { s with
          pending := a,
          mpd := if s.command = COMMAND_IDLE
            then s.mpd ++ [{ command := "noidle".toList, args := [] }] else s.mpd }) ∧
    (event_id ∉ actions.map Prod.fst →
      g_hash_table_lookup actions event_id = 0 ∧
      _j4status_mpd_section_action_callback actions s event_id =
        { s with
          pending := ACTION_TOGGLE,
          mpd := if s.command = COMMAND_IDLE
            then s.mpd ++ [{ command := "noidle".toList, args := [] }] else s.mpd }) := by
  obtain ⟨h1, h2⟩ := accepted_request_lookup actions s event_id hp hc
  constructor
  · intro v a hkeys hbound ha
    rw [h1, lookup_bound_action actions event_id v a hkeys hbound ha]
  · intro hmiss
    obtain ⟨h0, -⟩ := h2 hmiss
    refine ⟨h0, ?_⟩
    rw [h1, h0]
    rfl

/-- Witness for C29 on the idle sample section: `mouse:3`, bound to 4, stores
`next`; `mouse:2`, not bound, stores toggle; each sends `noidle`. -/
theorem C29_lookup_default_is_toggle_witness :
    _j4status_mpd_section_action_callback [("mouse:1".toList, 1), ("mouse:3".toList, 4)]
        sample_section "mouse:3".toList =
      { sample_section with
        pending := ACTION_NEXT,
        mpd := [{ command := "noidle".toList, args := [] }] } ∧
    _j4status_mpd_section_action_callback [("mouse:1".toList, 1), ("mouse:3".toList, 4)]
        sample_section "mouse:2".toList =
      { sample_section with
        pending := ACTION_TOGGLE,
        mpd := [{ command := "noidle".toList, args := [] }] } :=
  ⟨((C29_lookup_default_is_toggle [("mouse:1".toList, 1), ("mouse:3".toList, 4)]
      sample_section "mouse:3".toList rfl (by decide)).1 4 ACTION_NEXT (by decide) (by decide)
      (by decide)).trans (by decide),
   (((C29_lookup_default_is_toggle [("mouse:1".toList, 1), ("mouse:3".toList, 4)]
      sample_section "mouse:2".toList rfl (by decide)).2 (by decide)).2).trans (by decide)⟩

end J4status.Mpd
